import Mathlib

/-
Verification of the netwatch access-provisioning state machine.

This file shallowly embeds the provisioning, cleanup and read-model logic of
the netwatch repository (internal/handlers/websocket_commands.go,
internal/handlers/api_handlers.go, internal/controller/cleanup_controller.go,
internal/k8s/*.go) as executable Lean definitions over an explicit cluster
state, and proves properties of those definitions.

Modelling conventions:
  * The Kubernetes API is modelled as a `Cluster` record of object lists.
    Create prepends (after a name-collision check, mirroring AlreadyExists),
    Delete filters (mirroring NotFound when the object is absent), Update
    replaces in place.
  * Transient API failures are injected through explicit `Option K8sErr`
    parameters, one per fallible call site; `none` means the call reaches the
    store.  A transient failure of a read (Get) preceding a create is
    observationally identical to a failure of the create itself (no mutation,
    error returned), so a single injection point per compound operation
    suffices.
  * `uuid.New().String()` and the sha1-based `shortHash` are external inputs
    (Go standard library / crypto), passed in as the `cloneID` argument and a
    `hash : String → String` parameter respectively.
  * Go's `hex.EncodeToString([]byte(s))[:8]` is modelled char-wise
    (`randSuffixOf`); the ids it is applied to are ASCII uuid strings, for
    which the char codes are exactly the bytes.
  * Fields no claim touches (service type, clusterIP clearing, timestamps,
    expiry computation) are omitted from the embedded records.
-/

namespace Netwatch

/-- Errors of the orchestration store: NotFound, AlreadyExists/Conflict, and
opaque transient failures. -/
inductive K8sErr where
  | notFound
  | conflict
  | transient (code : Nat)
deriving DecidableEq

/-- Models k8s.IsNotFound. -/
def K8sErr.isNotFound : K8sErr → Bool
  | .notFound => true
  | _ => false

/-- The correlation label key stamped on every object of one logical grant. -/
def reqIdKey : String := "netwatch.vtk.io/request-id"

/-- The managed-by marker label key. -/
def managedByKey : String := "app.kubernetes.io/managed-by"

/-- The requesting-user label key. -/
def userKey : String := "netwatch.vtk.io/user"

/-- Annotation key recording the clone origin, internal/k8s/service.go. -/
def clonedFromKey : String := "netwatch.vtk.io/cloned-from"

/-- Annotation key recording the clone port list, internal/k8s/service.go. -/
def portsKey : String := "netwatch.vtk.io/ports"

/-- Finalizer placed on Access/ExternalAccess objects by the cleanup
controller. -/
def accessFinalizerName : String := "netwatch.vtk.io/access-cleanup-finalizer"

/-- Finalizer placed on AccessRequest objects by the cleanup controller. -/
def accessRequestFinalizerName : String := "netwatch.vtk.io/request-cleanup-finalizer"

/-- First-match lookup in an association list; models Go map indexing for the
label/annotation maps (which netwatch always builds with distinct keys). -/
def lookupL : List (String × String) → String → Option String
  | [], _ => none
  | kv :: rest, k => if kv.1 == k then some kv.2 else lookupL rest k

/-- Whether a label map carries the correlation label with the given value. -/
def hasReqId (lbls : List (String × String)) (id : String) : Bool :=
  lookupL lbls reqIdKey == some id

/-- Accumulator for `splitCh`. -/
def splitChAux (sep : Char) : List Char → List Char → List String
  | [], acc => [String.mk acc.reverse]
  | ch :: rest, acc =>
    if ch == sep then String.mk acc.reverse :: splitChAux sep rest []
    else splitChAux sep rest (ch :: acc)

/-- Models Go strings.Split with a single-character separator (used with "/"
and ","): always returns at least one element. -/
def splitCh (sep : Char) (s : String) : List String :=
  splitChAux sep s.data []

/-- Models Go strings.TrimSpace. -/
def trimS (s : String) : String :=
  String.mk ((s.data.dropWhile Char.isWhitespace).reverse.dropWhile Char.isWhitespace).reverse

/-- Accumulator for `atoiNat`. -/
def digitsToNatAux : List Char → Nat → Option Nat
  | [], acc => some acc
  | ch :: rest, acc =>
    if ch.isDigit then digitsToNatAux rest (acc * 10 + (ch.toNat - 48)) else none

/-- Models Go strconv.Atoi on the non-negative decimal strings used as port
numbers (netwatch only ever feeds it port values; signs are not modelled). -/
def atoiNat (s : String) : Option Nat :=
  match s.data with
  | [] => none
  | cs => digitsToNatAux cs 0

/-- Lowercase hex digit for a value below 16. -/
def hexDigitChar (n : Nat) : Char :=
  if n < 10 then Char.ofNat (48 + n) else Char.ofNat (87 + n)

/-- Two lowercase hex digits of one byte. -/
def hexOfByte (b : Nat) : List Char :=
  [hexDigitChar (b / 16 % 16), hexDigitChar (b % 16)]

/-- Models Go hex.EncodeToString([]byte(s)) char-wise; exact for the ASCII
uuid strings netwatch applies it to. -/
def hexEncodeChars (s : String) : List Char :=
  (s.data.map (fun ch => hexOfByte (ch.toNat % 256))).flatten

/-- Models hex.EncodeToString([]byte(id))[:8], the deterministic suffix
derived from a request id (ids are 36-char uuids, so 8 chars always exist). -/
def randSuffixOf (id : String) : String :=
  String.mk ((hexEncodeChars id).take 8)

/-- Whether `p` is an initial segment of `l`. -/
def startsWithL : List Char → List Char → Bool
  | [], _ => true
  | _ :: _, [] => false
  | p :: ps, c :: cs => p == c && startsWithL ps cs

/-- Remove the first (leftmost) occurrence of `pat`, if any. -/
def replaceFirstAux (pat : List Char) : List Char → Option (List Char)
  | [] => none
  | c :: cs =>
    if startsWithL pat (c :: cs) then some (List.drop pat.length (c :: cs))
    else
      match replaceFirstAux pat cs with
      | some res => some (c :: res)
      | none => none

/-- Models Go strings.Replace(s, pat, "", 1): delete the first occurrence of
`pat` from `s` (identity when `pat` does not occur). -/
def replaceFirst (s pat : String) : String :=
  match replaceFirstAux pat.data s.data with
  | some res => String.mk res
  | none => s

/-- One named target of an Access declaration (maxtac AccessPoint). -/
structure AccessPoint where
  serviceName : String
  ns : String
deriving DecidableEq

/-- A Service object; `ports` keeps only the port numbers (names/protocols
are derived display data in the source). -/
structure Service where
  name : String
  ns : String
  labels : List (String × String) := []
  annotations : List (String × String) := []
  selector : List (String × String) := []
  ports : List Nat := []
deriving DecidableEq

/-- A service-to-service Access declaration (maxtac Access). -/
structure Access where
  name : String
  ns : String
  labels : List (String × String) := []
  direction : String := ""
  duration : String := ""
  selector : List (String × String) := []
  targets : List AccessPoint := []
  finalizers : List String := []
  deleting : Bool := false
deriving DecidableEq

/-- A CIDR-based ExternalAccess declaration (maxtac ExternalAccess). -/
structure ExternalAccess where
  name : String
  ns : String
  labels : List (String × String) := []
  direction : String := ""
  duration : String := ""
  targetCIDRs : List String := []
  selector : List (String × String) := []
  finalizers : List String := []
  deleting : Bool := false
deriving DecidableEq

/-- A netwatch AccessRequest custom resource (cluster-scoped, keyed by name).
`deleting` models a non-zero deletion timestamp. -/
structure AccessRequest where
  name : String
  requestor : String := ""
  requestID : String := ""
  requestType : String := ""
  sourceService : String := ""
  targetService : String := ""
  cidr : String := ""
  service : String := ""
  direction : String := ""
  ports : String := ""
  duration : Int := 0
  description : String := ""
  status : String := ""
  sourceCloneName : String := ""
  targetCloneName : String := ""
  finalizers : List String := []
  deleting : Bool := false
deriving DecidableEq

/-- The visible cluster state: the four managed object kinds. -/
structure Cluster where
  services : List Service := []
  accesses : List Access := []
  externalAccesses : List ExternalAccess := []
  requests : List AccessRequest := []
deriving DecidableEq

/-- Key match for Services (name plus namespace). -/
def svcKeyMatch (nm ns : String) (s : Service) : Bool :=
  s.name == nm && s.ns == ns

/-- Key match for Accesses (name plus namespace). -/
def accKeyMatch (nm ns : String) (a : Access) : Bool :=
  a.name == nm && a.ns == ns

/-- Models k8s.DeleteService: remove the named Service; NotFound when absent;
an injected transient error leaves the state unchanged. -/
def deleteService (inj : Option K8sErr) (c : Cluster) (ns nm : String) :
    Cluster × Option K8sErr :=
  match inj with
  | some e => (c, some e)
  | none =>
    ({ c with services := c.services.filter (fun s => !(svcKeyMatch nm ns s)) },
     if c.services.any (svcKeyMatch nm ns) then none else some K8sErr.notFound)

/-- Models k8s.DeleteAccess, analogously to `deleteService`. -/
def deleteAccess (inj : Option K8sErr) (c : Cluster) (ns nm : String) :
    Cluster × Option K8sErr :=
  match inj with
  | some e => (c, some e)
  | none =>
    ({ c with accesses := c.accesses.filter (fun a => !(accKeyMatch nm ns a)) },
     if c.accesses.any (accKeyMatch nm ns) then none else some K8sErr.notFound)

/-- Models k8s.CreateAccess: AlreadyExists on a name/namespace collision,
otherwise the new object is stored. -/
def createAccess (inj : Option K8sErr) (c : Cluster) (a : Access) :
    Cluster × Option K8sErr :=
  match inj with
  | some e => (c, some e)
  | none =>
    if c.accesses.any (accKeyMatch a.name a.ns) then (c, some K8sErr.conflict)
    else ({ c with accesses := a :: c.accesses }, none)

/-- Models k8s.CreateExternalAccess, analogously to `createAccess`. -/
def createExternalAccess (inj : Option K8sErr) (c : Cluster) (ea : ExternalAccess) :
    Cluster × Option K8sErr :=
  match inj with
  | some e => (c, some e)
  | none =>
    if c.externalAccesses.any (fun x => x.name == ea.name && x.ns == ea.ns) then
      (c, some K8sErr.conflict)
    else ({ c with externalAccesses := ea :: c.externalAccesses }, none)

/-- The display string for a clone port list, internal/k8s/service.go. -/
def joinPortsAnnotation (ports : List Nat) : String :=
  String.intercalate ", " (ports.map (fun p => toString p))

/-- Models k8s.CloneService (internal/k8s/service.go): fetch the original
(NotFound when missing), port list = overridePorts if non-empty else the
original ports, build the clone with the correlation label and origin/ports
annotations, create it.  Service type and clusterIP clearing are omitted
(no claim concerns them). -/
def cloneService (inj : Option K8sErr) (c : Cluster)
    (originalNamespace originalName newName : String)
    (uniqueLabel : List (String × String)) (overridePorts : List Nat) :
    Cluster × Except K8sErr Service :=
  match c.services.find? (svcKeyMatch originalName originalNamespace) with
  | none => (c, .error K8sErr.notFound)
  | some orig =>
    let portsToUse := if overridePorts.length > 0 then overridePorts else orig.ports
    let cloned : Service :=
      { name := newName, ns := orig.ns, labels := uniqueLabel,
        annotations :=
          [(clonedFromKey, originalNamespace ++ "/" ++ originalName),
           (portsKey, joinPortsAnnotation portsToUse)],
        selector := orig.selector, ports := portsToUse }
    match inj with
    | some e => (c, .error e)
    | none =>
      if c.services.any (svcKeyMatch newName cloned.ns) then (c, .error K8sErr.conflict)
      else ({ c with services := cloned :: c.services }, .ok cloned)

/-- Models getOverridePorts / the identical inline loops: split the string on
commas, trim, skip empties, parse each as a port; the first unparsable entry
aborts with that entry as the error. -/
def parsePortList : List String → Except String (List Nat)
  | [] => .ok []
  | pStr :: rest =>
    let t := trimS pStr
    if t == "" then parsePortList rest
    else
      match atoiNat t with
      | none => .error t
      | some port =>
        match parsePortList rest with
        | .error e => .error e
        | .ok l => .ok (port :: l)

/-- Models getOverridePorts (internal/handlers/websocket_commands.go). -/
def getOverridePorts (ports : String) : Except String (List Nat) :=
  if ports == "" then .ok [] else parsePortList (splitCh ',' ports)

/-- The direction switch of the full-grant paths: requested direction to
(source-side, target-side) Access directions. -/
def grantDirections (direction : String) : String × String :=
  if direction == "ingress" then ("ingress", "egress")
  else if direction == "egress" then ("egress", "ingress")
  else ("all", "all")

/-- The per-side direction mapping shared by createPartialAccess and
approvePartialRequest (identical if-chains in the source). -/
def sideDirection (direction : String) (isSrc : Bool) : String :=
  if (direction == "egress" && isSrc) || (direction == "ingress" && !isSrc) then "egress"
  else if (direction == "ingress" && isSrc) || (direction == "egress" && !isSrc) then "ingress"
  else "all"

/-- Clone name used by the full-grant paths:
"nc-" ++ shortHash(serviceName) ++ "-" ++ suffix. -/
def fullCloneName (hash : String → String) (serviceName suffix : String) : String :=
  "nc-" ++ hash serviceName ++ "-" ++ suffix

/-- Clone name used by the single-sided paths (createPartialAccess and
approvePartialRequest): "nc-" ++ localName ++ "-" ++ suffix (the plain local
name, unhashed). -/
def sideCloneName (localName suffix : String) : String :=
  "nc-" ++ localName ++ "-" ++ suffix

/-- The forward-reference target name createPartialAccess stores for the
not-yet-existing remote clone:
"netwatch-clone-" ++ remoteName ++ "-" ++ suffix. -/
def forwardRefName (remoteName suffix : String) : String :=
  "netwatch-clone-" ++ remoteName ++ "-" ++ suffix

/-- The webSocketPayload fields the embedded commands read. -/
structure Payload where
  sourceService : String := ""
  targetService : String := ""
  direction : String := ""
  ports : String := ""
  cidr : String := ""
  service : String := ""
  duration : Int := 0
  description : String := ""
deriving DecidableEq

/-- Which forward step of a full grant failed (the message sent via
sendError identifies exactly this step in the source). -/
inductive GrantStep where
  | invalidPorts
  | invalidFormat
  | cloneSource
  | cloneTarget
  | accessSource
  | accessTarget
deriving DecidableEq

/-- Failure injections for one full-grant run: one per forward call and one
per rollback delete call. -/
structure GrantInj where
  cloneSource : Option K8sErr := none
  cloneTarget : Option K8sErr := none
  accessSource : Option K8sErr := none
  accessTarget : Option K8sErr := none
  delSourceClone : Option K8sErr := none
  delTargetClone : Option K8sErr := none
  delSourceAccess : Option K8sErr := none
deriving DecidableEq

/-- The Access object shape shared by every creation site in
websocket_commands.go: managed-by/user/request-id labels, the correlation
label selector, one named target. -/
def mkGrantAccess (sanitizedUsername cloneID nm ns dir dur : String)
    (target : AccessPoint) : Access :=
  { name := nm, ns := ns,
    labels := [(managedByKey, "netwatch"), (userKey, sanitizedUsername),
               (reqIdKey, cloneID)],
    direction := dir, duration := dur, selector := [(reqIdKey, cloneID)],
    targets := [target] }

/-- Models createClusterAccess (internal/handlers/websocket_commands.go,
lines 41-168), the full direct creation behind the requestClusterAccess
command: parse ports, validate namespace/name formats, clone both sides
under a fresh correlation id, create both Access declarations with
reciprocal directions; every failure after the first clone rolls back the
already created objects (rollback failures are logged and swallowed) and the
step that failed is what is reported. -/
def createClusterAccess (hash : String → String) (inj : GrantInj)
    (cloneID sanitizedUsername : String) (payload : Payload) (c : Cluster) :
    Cluster × Option GrantStep :=
  match getOverridePorts payload.ports with
  | .error _ => (c, some GrantStep.invalidPorts)
  | .ok overridePorts =>
    match splitCh '/' payload.sourceService, splitCh '/' payload.targetService with
    | [sourceNs, sourceName], [targetNs, targetName] =>
      let randSuffix := randSuffixOf cloneID
      let sourceCloneName := fullCloneName hash sourceName randSuffix
      let targetCloneName := fullCloneName hash targetName randSuffix
      let commonRequestLabel := [(reqIdKey, cloneID)]
      match cloneService inj.cloneSource c sourceNs sourceName sourceCloneName
          commonRequestLabel overridePorts with
      | (c1, .error _) => (c1, some GrantStep.cloneSource)
      | (c1, .ok sourceClone) =>
        match cloneService inj.cloneTarget c1 targetNs targetName targetCloneName
            commonRequestLabel overridePorts with
        | (c2, .error _) =>
          ((deleteService inj.delSourceClone c2 sourceClone.ns sourceClone.name).1,
           some GrantStep.cloneTarget)
        | (c2, .ok targetClone) =>
          let durationStr := if payload.duration > 0 then toString payload.duration ++ "s" else ""
          let dirs := grantDirections payload.direction
          let sourceAccess : Access :=
            mkGrantAccess sanitizedUsername cloneID ("access-" ++ sourceCloneName) sourceNs
              dirs.1 durationStr { serviceName := targetClone.name, ns := targetClone.ns }
          let targetAccess : Access :=
            mkGrantAccess sanitizedUsername cloneID ("access-" ++ targetCloneName) targetNs
              dirs.2 durationStr { serviceName := sourceClone.name, ns := sourceClone.ns }
          match createAccess inj.accessSource c2 sourceAccess with
          | (c3, some _) =>
            let c4 := (deleteService inj.delSourceClone c3 sourceClone.ns sourceClone.name).1
            let c5 := (deleteService inj.delTargetClone c4 targetClone.ns targetClone.name).1
            (c5, some GrantStep.accessSource)
          | (c3, none) =>
            match createAccess inj.accessTarget c3 targetAccess with
            | (c4, some _) =>
              let c5 := (deleteService inj.delSourceClone c4 sourceClone.ns sourceClone.name).1
              let c6 := (deleteService inj.delTargetClone c5 targetClone.ns targetClone.name).1
              let c7 := (deleteAccess inj.delSourceAccess c6 sourceAccess.ns sourceAccess.name).1
              (c7, some GrantStep.accessTarget)
            | (c4, none) => (c4, none)
    | _, _ => (c, some GrantStep.invalidFormat)

/-- Services carrying the given correlation-id label (the clonesByReqID
grouping of GetActiveAccesses, and the label-selected lists elsewhere). -/
def clonesFor (services : List Service) (reqID : String) : List Service :=
  services.filter (fun s => hasReqId s.labels reqID)

/-- Number of Service clones labelled with the correlation id. -/
def svcCount (c : Cluster) (reqID : String) : Nat :=
  (clonesFor c.services reqID).length

/-- The Access declarations labelled with the correlation id. -/
def accessesWith (c : Cluster) (reqID : String) : List Access :=
  c.accesses.filter (fun a => hasReqId a.labels reqID)

/-- Number of Access declarations labelled with the correlation id. -/
def accCount (c : Cluster) (reqID : String) : Nat :=
  (accessesWith c reqID).length

/-- Failure injections for one single-sided creation (clone, Access create,
rollback delete of the clone). -/
structure SideInj where
  clone : Option K8sErr := none
  createAcc : Option K8sErr := none
  delClone : Option K8sErr := none
deriving DecidableEq

/-- Models createPartialAccess (websocket_commands.go, lines 780-834): clone
the local side under the shared request id (suffix derived from the id,
clone name "nc-" ++ localName ++ "-" ++ suffix), then create one Access whose
target forward-references the remote clone under the name
"netwatch-clone-" ++ remoteName ++ "-" ++ suffix; a create failure deletes
the clone (delete failures logged and swallowed) before returning the error;
on success the local clone name is returned. -/
def createPartialAccess (inj : SideInj) (sanitizedUsername : String)
    (localNs localName remoteNs remoteName reqID : String)
    (payload : Payload) (isSrc : Bool) (c : Cluster) :
    Cluster × Except String String :=
  match getOverridePorts payload.ports with
  | .error t => (c, .error t)
  | .ok overridePorts =>
    let randSuffix := randSuffixOf reqID
    let localCloneName := sideCloneName localName randSuffix
    let commonRequestLabel := [(reqIdKey, reqID)]
    match cloneService inj.clone c localNs localName localCloneName
        commonRequestLabel overridePorts with
    | (c1, .error _) => (c1, .error "could not clone local service")
    | (c1, .ok _) =>
      let durationStr := toString payload.duration ++ "s"
      let access : Access :=
        mkGrantAccess sanitizedUsername reqID ("access-" ++ localCloneName) localNs
          (sideDirection payload.direction isSrc) durationStr
          { serviceName := forwardRefName remoteName randSuffix, ns := remoteNs }
      match createAccess inj.createAcc c1 access with
      | (c2, some _) =>
        ((deleteService inj.delClone c2 localNs localCloneName).1,
         .error "could not create the access policy")
      | (c2, none) => (c2, .ok localCloneName)

/-- Models approvePartialRequest (websocket_commands.go, lines 1005-1072):
create the missing side, reusing the request id, clone name
"nc-" ++ localName ++ "-" ++ suffix, targeting the stored clone name of the
already-created side; side flag for the direction mapping is
isSource = (status == "PendingSource").  Malformed namespace/name strings
panic in Go (unchecked index); they are read totally here and no claim
exercises them. -/
def approvePartialCore (inj : SideInj)
    (sanitizedUsername localNs localName remoteNs existingCloneName : String)
    (request : AccessRequest) (c : Cluster) : Cluster × Option String :=
  match getOverridePorts request.ports with
  | .error _ => (c, some "invalid port override")
  | .ok overridePorts =>
    let randSuffix := randSuffixOf request.requestID
    let localCloneName := sideCloneName localName randSuffix
    let commonRequestLabel := [(reqIdKey, request.requestID)]
    match cloneService inj.clone c localNs localName localCloneName
        commonRequestLabel overridePorts with
    | (c1, .error _) => (c1, some "could not clone missing service")
    | (c1, .ok _) =>
      let durationStr := toString request.duration ++ "s"
      let isSrc := request.status == "PendingSource"
      let access : Access :=
        mkGrantAccess sanitizedUsername request.requestID ("access-" ++ localCloneName)
          localNs (sideDirection request.direction isSrc) durationStr
          { serviceName := existingCloneName, ns := remoteNs }
      match createAccess inj.createAcc c1 access with
      | (c2, some _) =>
        ((deleteService inj.delClone c2 localNs localCloneName).1,
         some "could not create missing access policy")
      | (c2, none) => (c2, none)

/-- Entry point of approvePartialRequest: resolve which side is local from
`approvingSourceSide` (the completed side's stored clone name becomes the
target), then run the shared creation sequence. -/
def approvePartialRequest (inj : SideInj) (sanitizedUsername : String)
    (request : AccessRequest) (approvingSourceSide : Bool) (c : Cluster) :
    Cluster × Option String :=
  let sourceParts := splitCh '/' request.sourceService
  let targetParts := splitCh '/' request.targetService
  if approvingSourceSide then
    approvePartialCore inj sanitizedUsername (sourceParts.headD "")
      ((sourceParts.drop 1).headD "") (targetParts.headD "")
      request.targetCloneName request c
  else
    approvePartialCore inj sanitizedUsername (targetParts.headD "")
      ((targetParts.drop 1).headD "") (sourceParts.headD "")
      request.sourceCloneName request c

/-- The stored request parameters viewed as a command payload, as read by
approveFullRequest. -/
def payloadOfRequest (request : AccessRequest) : Payload :=
  { sourceService := request.sourceService, targetService := request.targetService,
    direction := request.direction, ports := request.ports, duration := request.duration,
    cidr := request.cidr, service := request.service }

/-- Models approveFullRequest (websocket_commands.go, lines 836-1003).  The
Service branch repeats the createClusterAccess sequence verbatim with the
request id as correlation id and the stored parameters, so it is expressed
through `createClusterAccess` (differences are only in message strings and
that malformed namespace/name input panics in Go instead of returning).  The
External branch clones one side and creates an ExternalAccess, rolling the
clone back when the create fails.  An unknown request type falls through the
switch and returns success, as in Go. -/
def approveFullRequest (hash : String → String) (inj : GrantInj)
    (sanitizedUsername : String) (request : AccessRequest) (c : Cluster) :
    Cluster × Option GrantStep :=
  if request.requestType == "Service" then
    createClusterAccess hash inj request.requestID sanitizedUsername
      (payloadOfRequest request) c
  else if request.requestType == "External" then
    match getOverridePorts request.ports with
    | .error _ => (c, some GrantStep.invalidPorts)
    | .ok overridePorts =>
      match splitCh '/' request.service with
      | [serviceNs, serviceName] =>
        let randSuffix := randSuffixOf request.requestID
        let cloneName := fullCloneName hash serviceName randSuffix
        let cloneLabel := [(reqIdKey, request.requestID)]
        match cloneService inj.cloneSource c serviceNs serviceName cloneName
            cloneLabel overridePorts with
        | (c1, .error _) => (c1, some GrantStep.cloneSource)
        | (c1, .ok _) =>
          let durationStr :=
            if request.duration > 0 then toString request.duration ++ "s" else ""
          let ea : ExternalAccess :=
            { name := "ea-" ++ cloneName, ns := serviceNs,
              labels := [(managedByKey, "netwatch"), (userKey, sanitizedUsername),
                         (reqIdKey, request.requestID)],
              direction := request.direction, duration := durationStr,
              targetCIDRs := [request.cidr], selector := cloneLabel }
          match createExternalAccess inj.accessSource c1 ea with
          | (c2, some _) =>
            ((deleteService inj.delSourceClone c2 serviceNs cloneName).1,
             some GrantStep.accessSource)
          | (c2, none) => (c2, none)
      | _ => (c, some GrantStep.invalidFormat)
  else (c, none)

/-- Models k8s.CreateAccessRequestAsApp (cluster-scoped create by name). -/
def createAccessRequestAsApp (inj : Option K8sErr) (c : Cluster) (req : AccessRequest) :
    Cluster × Option K8sErr :=
  match inj with
  | some e => (c, some e)
  | none =>
    if c.requests.any (fun r => r.name == req.name) then (c, some K8sErr.conflict)
    else ({ c with requests := req :: c.requests }, none)

/-- Models k8s.GetAccessRequestAsApp (lookup by name). -/
def getAccessRequestAsApp (c : Cluster) (nm : String) : Option AccessRequest :=
  c.requests.find? (fun r => r.name == nm)

/-- Models k8s.DeleteAccessRequestAsApp (delete by name; NotFound when the
record is absent). -/
def deleteAccessRequestAsApp (inj : Option K8sErr) (c : Cluster) (nm : String) :
    Cluster × Option K8sErr :=
  match inj with
  | some e => (c, some e)
  | none =>
    ({ c with requests := c.requests.filter (fun r => !(r.name == nm)) },
     if c.requests.any (fun r => r.name == nm) then none else some K8sErr.notFound)

/-- Which step of a submission failed. -/
inductive SubmitErr where
  | impersonateErr
  | invalidFormat
  | sideCreateFailed
  | createRequestFailed
deriving DecidableEq

/-- Failure injections for one submission run. -/
structure SubmitInj where
  impersonate : Option K8sErr := none
  side : SideInj := {}
  createRequest : Option K8sErr := none
deriving DecidableEq

/-- Models handleSubmitAccessRequest (websocket_commands.go, lines 443-539).
`canSource` and `canTarget` are the booleans returned by the two per-side
CanPerformAllActions calls (whose error returns the code discards, so an
evaluation failure reads as false).  Service-to-service: both sides or
neither side authorized gives status "PendingFull" with nothing created;
exactly one side authorized eagerly creates that side through
createPartialAccess and stores the clone name; external requests are always
"PendingFull".  The AccessRequest record is then created under the name
"ar-" ++ user ++ "-" ++ requestID[:8]. -/
def handleSubmitAccessRequest (inj : SubmitInj) (canSource canTarget : Bool)
    (requestID sanitizedUsername requestorEmail : String) (payload : Payload)
    (c : Cluster) : Cluster × Option SubmitErr :=
  match inj.impersonate with
  | some _ => (c, some SubmitErr.impersonateErr)
  | none =>
    let base : AccessRequest :=
      { name := "ar-" ++ sanitizedUsername ++ "-" ++ String.mk (requestID.data.take 8),
        requestor := requestorEmail, requestID := requestID,
        sourceService := payload.sourceService, targetService := payload.targetService,
        cidr := payload.cidr, service := payload.service, direction := payload.direction,
        ports := payload.ports, duration := payload.duration,
        description := payload.description }
    if payload.targetService != "" then
      match splitCh '/' payload.sourceService, splitCh '/' payload.targetService with
      | [sourceNs, sourceName], [targetNs, targetName] =>
        let base := { base with requestType := "Service" }
        if canSource && canTarget then
          match createAccessRequestAsApp inj.createRequest c
              { base with status := "PendingFull" } with
          | (c1, some _) => (c1, some SubmitErr.createRequestFailed)
          | (c1, none) => (c1, none)
        else if canSource then
          match createPartialAccess inj.side sanitizedUsername sourceNs sourceName
              targetNs targetName requestID payload true c with
          | (c1, .error _) => (c1, some SubmitErr.sideCreateFailed)
          | (c1, .ok cloneName) =>
            match createAccessRequestAsApp inj.createRequest c1
                { base with status := "PendingTarget", sourceCloneName := cloneName } with
            | (c2, some _) => (c2, some SubmitErr.createRequestFailed)
            | (c2, none) => (c2, none)
        else if canTarget then
          match createPartialAccess inj.side sanitizedUsername targetNs targetName
              sourceNs sourceName requestID payload false c with
          | (c1, .error _) => (c1, some SubmitErr.sideCreateFailed)
          | (c1, .ok cloneName) =>
            match createAccessRequestAsApp inj.createRequest c1
                { base with status := "PendingSource", targetCloneName := cloneName } with
            | (c2, some _) => (c2, some SubmitErr.createRequestFailed)
            | (c2, none) => (c2, none)
        else
          match createAccessRequestAsApp inj.createRequest c
              { base with status := "PendingFull" } with
          | (c1, some _) => (c1, some SubmitErr.createRequestFailed)
          | (c1, none) => (c1, none)
      | _, _ => (c, some SubmitErr.invalidFormat)
    else
      match createAccessRequestAsApp inj.createRequest c
          { base with requestType := "External", status := "PendingFull" } with
      | (c1, some _) => (c1, some SubmitErr.createRequestFailed)
      | (c1, none) => (c1, none)

/-- Which step of an approval failed. -/
inductive ApproveErr where
  | requestNotFound
  | impersonateErr
  | fullFailed
  | sideFailed
  | unknownStatus
deriving DecidableEq

/-- Models handleApproveAccessRequest (websocket_commands.go, lines
541-600): load the request by name, dispatch on its status, and on success
delete the request record; a failure of that final deletion is only logged
(the run still reports success). -/
def handleApproveAccessRequest (hash : String → String) (injFull : GrantInj)
    (injSide : SideInj) (injImpersonate injDelReq : Option K8sErr)
    (sanitizedUsername requestIDPayload : String) (c : Cluster) :
    Cluster × Option ApproveErr :=
  match getAccessRequestAsApp c requestIDPayload with
  | none => (c, some ApproveErr.requestNotFound)
  | some request =>
    match injImpersonate with
    | some _ => (c, some ApproveErr.impersonateErr)
    | none =>
      let step : Cluster × Option ApproveErr :=
        if request.status == "PendingFull" then
          let r := approveFullRequest hash injFull sanitizedUsername request c
          (r.1, if r.2.isSome then some ApproveErr.fullFailed else none)
        else if request.status == "PendingTarget" then
          let r := approvePartialRequest injSide sanitizedUsername request false c
          (r.1, if r.2.isSome then some ApproveErr.sideFailed else none)
        else if request.status == "PendingSource" then
          let r := approvePartialRequest injSide sanitizedUsername request true c
          (r.1, if r.2.isSome then some ApproveErr.sideFailed else none)
        else (c, some ApproveErr.unknownStatus)
      match step with
      | (c1, some e) => (c1, some e)
      | (c1, none) => ((deleteAccessRequestAsApp injDelReq c1 requestIDPayload).1, none)

/-- The user-visible events of one deny/abort run, in emission order. -/
inductive DenyEvent where
  | requestNotFound
  | permCheckFailed
  | permissionDenied
  | impersonateFailed
  | cleanupFailed
  | deleteRequestFailed
  | denied (ownerAbort : Bool)
deriving DecidableEq

/-- Failure injections for one deny/abort run. -/
structure DenyInj where
  canDenyCheck : Option K8sErr := none
  impersonate : Option K8sErr := none
  delAccess : Option K8sErr := none
  delRequest : Option K8sErr := none
deriving DecidableEq

/-- Models handleDenyAccessRequest (websocket_commands.go, lines 602-681):
load the request; the owner may always proceed, otherwise a delete-type
permission check gates the deny; on a Pending(Target|Source) request the
single-sided Access (name "access-" ++ stored clone name) is deleted and a
non-NotFound failure emits a cleanup error event -- after which the source
continues (there is no return): the request record deletion is attempted
regardless, and its own failure aborts with an error.  `canDeny` is the
verdict of the permission check. -/
def handleDenyAccessRequest (inj : DenyInj) (userEmail : String) (canDeny : Bool)
    (requestIDPayload : String) (c : Cluster) : Cluster × List DenyEvent :=
  match getAccessRequestAsApp c requestIDPayload with
  | none => (c, [DenyEvent.requestNotFound])
  | some request =>
    let isOwner := userEmail == request.requestor
    if !isOwner && inj.canDenyCheck.isSome then (c, [DenyEvent.permCheckFailed])
    else if !isOwner && !canDeny then (c, [DenyEvent.permissionDenied])
    else
      match inj.impersonate with
      | some _ => (c, [DenyEvent.impersonateFailed])
      | none =>
        let cleanup : List DenyEvent × Cluster :=
          if request.status == "PendingTarget" || request.status == "PendingSource" then
            let cloneNameToDelete :=
              if request.status == "PendingTarget" then request.sourceCloneName
              else request.targetCloneName
            let namespaceToDelete :=
              if request.status == "PendingTarget" then
                (splitCh '/' request.sourceService).headD ""
              else (splitCh '/' request.targetService).headD ""
            let r := deleteAccess inj.delAccess c namespaceToDelete
              ("access-" ++ cloneNameToDelete)
            (match r.2 with
             | some e => if e.isNotFound then [] else [DenyEvent.cleanupFailed]
             | none => [], r.1)
          else ([], c)
        match deleteAccessRequestAsApp inj.delRequest cleanup.2 requestIDPayload with
        | (c2, some _) => (c2, cleanup.1 ++ [DenyEvent.deleteRequestFailed])
        | (c2, none) => (c2, cleanup.1 ++ [DenyEvent.denied isOwner])

/-- Models an Update of an AccessRequest record (replace by name). -/
def updateRequest (inj : Option K8sErr) (c : Cluster) (req : AccessRequest) :
    Cluster × Option K8sErr :=
  match inj with
  | some e => (c, some e)
  | none =>
    ({ c with requests := c.requests.map (fun r => if r.name == req.name then req else r) },
     none)

/-- Models an Update of an Access record (replace by name and namespace). -/
def updateAccess (inj : Option K8sErr) (c : Cluster) (a : Access) :
    Cluster × Option K8sErr :=
  match inj with
  | some e => (c, some e)
  | none =>
    ({ c with accesses :=
        c.accesses.map (fun x => if x.name == a.name && x.ns == a.ns then a else x) },
     none)

/-- Failure injections for one reconcileAccessRequest pass. -/
structure ReqReconInj where
  addFinalizerUpdate : Option K8sErr := none
  cleanupDelAccess : Option K8sErr := none
  removeFinalizerUpdate : Option K8sErr := none
  getAccess : Option K8sErr := none
  deleteRequest : Option K8sErr := none
deriving DecidableEq

/-- Result of one reconcileAccessRequest pass: the error handed back to the
scheduler (forcing a retry), and whether the orphan branch issued its
explicit Delete of the request. -/
structure ReqReconResult where
  err : Option K8sErr := none
  orphanDeleted : Bool := false
deriving DecidableEq

/-- Models cleanupPartialAccess (cleanup_controller.go, lines 142-181):
on a Pending(Target|Source) request with a recorded clone name and
namespace, delete the corresponding Access (NotFound is success); otherwise
do nothing. -/
def cleanupPartialAccess (inj : Option K8sErr) (request : AccessRequest) (c : Cluster) :
    Cluster × Option K8sErr :=
  if request.status != "PendingTarget" && request.status != "PendingSource" then (c, none)
  else
    let cloneName :=
      if request.status == "PendingTarget" then request.sourceCloneName
      else request.targetCloneName
    let ns :=
      if request.status == "PendingTarget" then (splitCh '/' request.sourceService).headD ""
      else (splitCh '/' request.targetService).headD ""
    if cloneName == "" || ns == "" then (c, none)
    else
      let r := deleteAccess inj c ns ("access-" ++ cloneName)
      match r.2 with
      | some e => if e.isNotFound then (r.1, none) else (r.1, some e)
      | none => (r.1, none)

/-- Models reconcileAccessRequest (cleanup_controller.go, lines 68-139).
Not deleting: add the finalizer when missing (update failure requeues), then
-- only for Pending(Target|Source) -- check whether the expected Access
(name "access-" ++ stored clone name, namespace of the completed side)
exists; when it is gone, the request is an orphan and is deleted with an
explicit Delete.  Being deleted: run cleanupPartialAccess, remove the
finalizer, and return early without the orphan check. -/
def reconcileAccessRequest (inj : ReqReconInj) (request : AccessRequest) (c : Cluster) :
    Cluster × ReqReconResult :=
  if !request.deleting then
    let addStep : Cluster × Option K8sErr × AccessRequest :=
      if !(request.finalizers.contains accessRequestFinalizerName) then
        let req1 :=
          { request with finalizers := accessRequestFinalizerName :: request.finalizers }
        let u := updateRequest inj.addFinalizerUpdate c req1
        (u.1, u.2, req1)
      else (c, none, request)
    match addStep with
    | (c1, some e, _) => (c1, { err := some e })
    | (c1, none, req1) =>
      if req1.status != "PendingTarget" && req1.status != "PendingSource" then (c1, {})
      else
        let cloneName :=
          if req1.status == "PendingTarget" then req1.sourceCloneName
          else req1.targetCloneName
        let ns :=
          if req1.status == "PendingTarget" then (splitCh '/' req1.sourceService).headD ""
          else (splitCh '/' req1.targetService).headD ""
        let accessName := "access-" ++ cloneName
        match inj.getAccess with
        | some e => (c1, { err := some e })
        | none =>
          if c1.accesses.any (accKeyMatch accessName ns) then (c1, {})
          else
            match inj.deleteRequest with
            | some e => (c1, { err := some e })
            | none =>
              ({ c1 with requests := c1.requests.filter (fun r => !(r.name == req1.name)) },
               { orphanDeleted := true })
  else
    if request.finalizers.contains accessRequestFinalizerName then
      match cleanupPartialAccess inj.cleanupDelAccess request c with
      | (c1, some e) => (c1, { err := some e })
      | (c1, none) =>
        let req1 :=
          { request with
            finalizers := request.finalizers.filter
              (fun f => !(f == accessRequestFinalizerName)) }
        match updateRequest inj.removeFinalizerUpdate c1 req1 with
        | (c2, some e) => (c2, { err := some e })
        | (c2, none) => (c2, {})
    else (c, {})

/-- Failure injections for one reconcileAccessFinalizer pass (the per-clone
delete failures are a separate function argument keyed by namespace and
name). -/
structure FinReconInj where
  addFinalizerUpdate : Option K8sErr := none
  listServices : Option K8sErr := none
  removeFinalizerUpdate : Option K8sErr := none
deriving DecidableEq

/-- Models deleteClonedServices (cleanup_controller.go, lines 227-245): list
all Services carrying the correlation label (a list failure is the only
error returned), then delete each; individual delete failures are logged and
swallowed, leaving those clones in place. -/
def deleteClonedServices (listInj : Option K8sErr)
    (delInj : String → String → Option K8sErr) (c : Cluster) (reqID : String) :
    Cluster × Option K8sErr :=
  match listInj with
  | some e => (c, some e)
  | none =>
    ({ c with services :=
        c.services.filter (fun s => !(hasReqId s.labels reqID && (delInj s.ns s.name).isNone)) },
     none)

/-- Models reconcileAccessFinalizer (cleanup_controller.go, lines 184-224)
for an Access object (the Go function is generic over Access and
ExternalAccess through client.Object).  Not deleting: add the finalizer when
missing.  Deleting with the finalizer: when the correlation label is present
run deleteClonedServices (an error requeues), then remove the finalizer
(NotFound on that update is treated as success); a missing label skips the
cleanup with a warning but still removes the finalizer. -/
def reconcileAccessFinalizer (inj : FinReconInj)
    (delInj : String → String → Option K8sErr) (obj : Access) (c : Cluster) :
    Cluster × Option K8sErr :=
  if !obj.deleting then
    if !(obj.finalizers.contains accessFinalizerName) then
      updateAccess inj.addFinalizerUpdate c
        { obj with finalizers := accessFinalizerName :: obj.finalizers }
    else (c, none)
  else
    if obj.finalizers.contains accessFinalizerName then
      let afterCleanup : Cluster × Option K8sErr :=
        match lookupL obj.labels reqIdKey with
        | none => (c, none)
        | some reqID => deleteClonedServices inj.listServices delInj c reqID
      match afterCleanup with
      | (c1, some e) => (c1, some e)
      | (c1, none) =>
        let obj1 :=
          { obj with finalizers := obj.finalizers.filter (fun f => !(f == accessFinalizerName)) }
        match updateAccess inj.removeFinalizerUpdate c1 obj1 with
        | (c2, some e) => if e.isNotFound then (c2, none) else (c2, some e)
        | (c2, none) => (c2, none)
    else (c, none)

/-- One row of the active-access read model (expiry fields omitted: no claim
concerns them). -/
structure ActiveAccessInfo where
  typ : String := ""
  name : String := ""
  ns : String := ""
  source : String := ""
  target : String := ""
  direction : String := ""
  ports : String := ""
  status : String := ""
deriving DecidableEq

/-- Annotation read with Go map semantics (missing key gives ""). -/
def annotOf (s : Service) (k : String) : String :=
  (lookupL s.annotations k).getD ""

/-- Models the per-Access body of the GetActiveAccesses service loop
(internal/handlers/api_handlers.go, lines 247-303): group the clones by
correlation label; no label or no clones excludes the row; exactly two
clones gives an "Active" row whose target/source are identified by
name+namespace match of the declaration's first target against the clones;
exactly one clone gives a "Pending" row whose display target is synthesized
by stripping the "netwatch-clone-" prefix and the id-derived "-" ++ suffix
from the stored target name; any other count is skipped with a warning
(`none`), never an error.  netwatch-created Accesses carry exactly one
target; Go indexes Targets[0] (a panic when empty), read here totally. -/
def processAccess (services : List Service) (access : Access) : Option ActiveAccessInfo :=
  match lookupL access.labels reqIdKey with
  | none => none
  | some reqID =>
    let clones := clonesFor services reqID
    let info : ActiveAccessInfo :=
      { typ := "Service", name := access.name, ns := access.ns,
        direction := access.direction }
    match clones with
    | [clone1, clone2] =>
      let t := access.targets.headD { serviceName := "", ns := "" }
      if t.serviceName == clone1.name && t.ns == clone1.ns then
        some { info with
                status := "Active", target := annotOf clone1 clonedFromKey,
                source := annotOf clone2 clonedFromKey, ports := annotOf clone2 portsKey }
      else if t.serviceName == clone2.name && t.ns == clone2.ns then
        some { info with
                status := "Active", target := annotOf clone2 clonedFromKey,
                source := annotOf clone1 clonedFromKey, ports := annotOf clone1 portsKey }
      else some { info with status := "Active" }
    | [clone] =>
      let t := access.targets.headD { serviceName := "", ns := "" }
      let targetSvcString :=
        t.ns ++ "/" ++
          replaceFirst (replaceFirst t.serviceName "netwatch-clone-")
            ("-" ++ randSuffixOf reqID)
      some { info with
              status := "Pending", source := annotOf clone clonedFromKey,
              target := targetSvcString ++ " (Pending Approval)",
              ports := annotOf clone portsKey }
    | _ => none

/-- The verdict of one member permission check as observed by its goroutine
in CanPerformAllActions: allowed, denied (mapped in the source to an error
whose text begins with "permission denied"), or an evaluation failure of the
authorization call itself (its error text never has that prefix). -/
inductive CheckOutcome where
  | allowed
  | denied
  | failed (code : Nat)
deriving DecidableEq

/-- Models CanPerformAllActions (internal/k8s/client.go, lines 144-170).
The member checks run concurrently in an errgroup; `completed` is the list
of their verdicts ordered by completion, a permutation of the per-request
verdicts.  errgroup.Wait returns the error of the first goroutine to return
one; a denial error (the "permission denied" prefix) is folded to
(false, nil), any other error is surfaced as (false, err); with no error the
result is (true, nil). -/
def CanPerformAllActions : List CheckOutcome → Bool × Option Nat
  | [] => (true, none)
  | CheckOutcome.allowed :: rest => CanPerformAllActions rest
  | CheckOutcome.denied :: _ => (false, none)
  | CheckOutcome.failed e :: _ => (false, some e)

/-- Concrete fixture: the original source Service of the worked examples. -/
def demoSvc1 : Service :=
  { name := "svc1", ns := "team-a", selector := [("app", "one")], ports := [80] }

/-- Concrete fixture: the original target Service of the worked examples. -/
def demoSvc2 : Service :=
  { name := "svc2", ns := "team-b", selector := [("app", "two")], ports := [443] }

/-- Concrete fixture: a cluster holding only the two original Services. -/
def demoCluster : Cluster := { services := [demoSvc1, demoSvc2] }

/-- Concrete fixture: the request payload of the worked examples. -/
def demoPayload : Payload :=
  { sourceService := "team-a/svc1", targetService := "team-b/svc2",
    direction := "ingress", ports := "", duration := 600 }

/-- Concrete stand-in for the external sha1 shortHash in worked examples. -/
def demoHash : String → String := fun s => s

/-- Concrete fixture: submission of the worked example for review by a user
with source-side permissions only (yields a PendingTarget request). -/
def demoSubmit : Cluster × Option SubmitErr :=
  handleSubmitAccessRequest {} true false "0123456789" "alice" "alice@example.com"
    demoPayload demoCluster

/-- Concrete fixture: the approval completing the worked submission. -/
def demoApprove : Cluster × Option ApproveErr :=
  handleApproveAccessRequest demoHash {} {} none none "bob" "ar-alice-01234567"
    demoSubmit.1

/-- Concrete fixture: the worked payload with requested direction egress. -/
def demoPayloadEgress : Payload :=
  { sourceService := "team-a/svc1", targetService := "team-b/svc2",
    direction := "egress", ports := "", duration := 600 }

/-- Concrete fixture: a PendingSource request for the worked pair. -/
def demoPendingSource : AccessRequest :=
  { name := "ar-alice-01234567", requestID := "0123456789",
    requestor := "alice@example.com", requestType := "Service",
    sourceService := "team-a/svc1", targetService := "team-b/svc2",
    direction := "egress", duration := 600, status := "PendingSource",
    targetCloneName := "nc-svc2-30313233" }

/-- Concrete fixture: denying the worked PendingTarget request while the
Access delete fails transiently. -/
def demoDeny : Cluster × List DenyEvent :=
  handleDenyAccessRequest { delAccess := some (K8sErr.transient 5) }
    "alice@example.com" false "ar-alice-01234567" demoSubmit.1

/-- Concrete fixture: the AccessRequest record the worked submission
stores. -/
def demoStoredRequest : AccessRequest :=
  { name := "ar-alice-01234567", requestID := "0123456789",
    requestor := "alice@example.com", requestType := "Service",
    sourceService := "team-a/svc1", targetService := "team-b/svc2",
    direction := "ingress", duration := 600, status := "PendingTarget",
    sourceCloneName := "nc-svc1-30313233" }

/-- Concrete fixture: the worked PendingTarget request as stored, with the
reconciler finalizer already attached. -/
def demoOrphanRequest : AccessRequest :=
  { demoStoredRequest with finalizers := [accessRequestFinalizerName] }

/-- Concrete fixture: the cluster after the partner Access object of the
worked request vanished out-of-band (clone still present, Access gone). -/
def demoOrphanCluster : Cluster :=
  { services := demoSubmit.1.services, requests := [demoOrphanRequest] }

/-- Concrete fixture: the source-side clone of the worked pair, as the
read-model sees it. -/
def demoJoinCloneA : Service :=
  { name := "nc-svc1-30313233", ns := "team-a",
    labels := [(reqIdKey, "0123456789")],
    annotations := [(clonedFromKey, "team-a/svc1"), (portsKey, "80")] }

/-- Concrete fixture: the target-side clone of the worked pair. -/
def demoJoinCloneB : Service :=
  { name := "nc-svc2-30313233", ns := "team-b",
    labels := [(reqIdKey, "0123456789")],
    annotations := [(clonedFromKey, "team-b/svc2"), (portsKey, "443")] }

/-- Concrete fixture: the source-side Access of the worked pair, targeting
the target clone by name and namespace. -/
def demoJoinAccess : Access :=
  { name := "access-nc-svc1-30313233", ns := "team-a",
    labels := [(managedByKey, "netwatch"), (userKey, "alice"),
               (reqIdKey, "0123456789")],
    direction := "ingress",
    targets := [{ serviceName := "nc-svc2-30313233", ns := "team-b" }] }

/-- Concrete fixture: an Access being deleted with the cleanup finalizer
attached, for the finalizer-cascade example. -/
def demoFinAccess : Access :=
  { name := "access-nc-svc1-30313233", ns := "team-a",
    labels := [(managedByKey, "netwatch"), (userKey, "alice"),
               (reqIdKey, "0123456789")],
    deleting := true, finalizers := [accessFinalizerName] }

/-- Concrete fixture: cluster with two labelled clones and the deleting
Access. -/
def demoFinCluster : Cluster :=
  { services := [demoJoinCloneA, demoJoinCloneB], accesses := [demoFinAccess] }

/-- Concrete fixture: clone-delete outcomes where deleting the target clone
fails transiently. -/
def demoDelInj : String → String → Option K8sErr :=
  fun _ nm => if nm == "nc-svc2-30313233" then some (K8sErr.transient 9) else none

/-- The correlation-label singleton map carries the correlation label. -/
theorem hasReqId_requestLabel (id : String) : hasReqId [(reqIdKey, id)] id = true := by
  simp [hasReqId, lookupL]

/-- The Access label map built by every creation path carries the
correlation label. -/
theorem hasReqId_accessLabels (u id : String) :
    hasReqId [(managedByKey, "netwatch"), (userKey, u), (reqIdKey, id)] id = true := by
  simp [hasReqId, lookupL, managedByKey, userKey, reqIdKey]

/-- Filtering away a key no element matches keeps the list intact. -/
theorem filter_not_eq_self {α : Type} (p : α → Bool) (l : List α)
    (h : l.any p = false) : l.filter (fun x => !(p x)) = l := by
  induction l with
  | nil => rfl
  | cons a t ih =>
    simp only [List.any_cons, Bool.or_eq_false_iff] at h
    simp [List.filter_cons, h.1, ih h.2]

/-- A zero label-count means the label filter is empty. -/
theorem clonesFor_eq_nil_of_count_zero {l : List Service} {id : String}
    (h : (clonesFor l id).length = 0) : clonesFor l id = [] :=
  List.length_eq_zero.mp h

/-- Projection of the shared Access builder: name. -/
@[simp] theorem mkGrantAccess_name (u id nm ns dir dur : String) (t : AccessPoint) :
    (mkGrantAccess u id nm ns dir dur t).name = nm := rfl

/-- Projection of the shared Access builder: namespace. -/
@[simp] theorem mkGrantAccess_ns (u id nm ns dir dur : String) (t : AccessPoint) :
    (mkGrantAccess u id nm ns dir dur t).ns = ns := rfl

/-- Projection of the shared Access builder: labels. -/
@[simp] theorem mkGrantAccess_labels (u id nm ns dir dur : String) (t : AccessPoint) :
    (mkGrantAccess u id nm ns dir dur t).labels =
      [(managedByKey, "netwatch"), (userKey, u), (reqIdKey, id)] := rfl

/-- Projection of the shared Access builder: direction. -/
@[simp] theorem mkGrantAccess_direction (u id nm ns dir dur : String) (t : AccessPoint) :
    (mkGrantAccess u id nm ns dir dur t).direction = dir := rfl

/-- Projection of the shared Access builder: targets. -/
@[simp] theorem mkGrantAccess_targets (u id nm ns dir dur : String) (t : AccessPoint) :
    (mkGrantAccess u id nm ns dir dur t).targets = [t] := rfl

/-- A built Access matches its own key. -/
@[simp] theorem accKeyMatch_mkGrantAccess (nm ns u id dir dur : String) (t : AccessPoint) :
    accKeyMatch nm ns (mkGrantAccess u id nm ns dir dur t) = true := by
  simp [accKeyMatch]

/-- Characterization of a successful cloneService call. -/
theorem cloneService_ok {inj : Option K8sErr} {c : Cluster}
    {ns nm newName : String} {lbl : List (String × String)} {ports : List Nat}
    {c2 : Cluster} {sv : Service}
    (h : cloneService inj c ns nm newName lbl ports = (c2, Except.ok sv)) :
    sv.name = newName ∧ sv.ns = ns ∧ sv.labels = lbl ∧
    c2 = { c with services := sv :: c.services } ∧
    c.services.any (svcKeyMatch newName ns) = false := by
  simp only [cloneService] at h
  split at h
  · simp at h
  next orig hf =>
    have horig := List.find?_some hf
    simp only [svcKeyMatch, Bool.and_eq_true, beq_iff_eq] at horig
    split at h
    · simp at h
    · split at h
      · simp at h
      next hcol =>
        obtain ⟨hc2, hsv⟩ := Prod.mk.injEq _ _ _ _ ▸ h
        injection hsv with hsveq
        subst hsveq
        rw [horig.2] at hcol hc2 ⊢
        exact ⟨rfl, rfl, rfl, hc2.symm, Bool.eq_false_iff.mpr hcol⟩

/-- A failed cloneService call leaves the cluster untouched. -/
theorem cloneService_err {inj : Option K8sErr} {c : Cluster}
    {ns nm newName : String} {lbl : List (String × String)} {ports : List Nat}
    {c2 : Cluster} {e : K8sErr}
    (h : cloneService inj c ns nm newName lbl ports = (c2, Except.error e)) : c2 = c := by
  simp only [cloneService] at h
  split at h
  · exact ((Prod.mk.injEq _ _ _ _ ▸ h).1).symm
  · split at h
    · exact ((Prod.mk.injEq _ _ _ _ ▸ h).1).symm
    · split at h
      · exact ((Prod.mk.injEq _ _ _ _ ▸ h).1).symm
      · simp at h

/-- Characterization of a successful createAccess call. -/
theorem createAccess_ok {inj : Option K8sErr} {c : Cluster} {a : Access} {c2 : Cluster}
    (h : createAccess inj c a = (c2, none)) :
    c2 = { c with accesses := a :: c.accesses } ∧
    c.accesses.any (accKeyMatch a.name a.ns) = false := by
  simp only [createAccess] at h
  split at h
  · simp at h
  · split at h
    · simp at h
    next hcol =>
      obtain ⟨hc2, _⟩ := Prod.mk.injEq _ _ _ _ ▸ h
      exact ⟨hc2.symm, Bool.eq_false_iff.mpr hcol⟩

/-- A failed createAccess call leaves the cluster untouched. -/
theorem createAccess_err {inj : Option K8sErr} {c : Cluster} {a : Access}
    {c2 : Cluster} {e : K8sErr} (h : createAccess inj c a = (c2, some e)) : c2 = c := by
  simp only [createAccess] at h
  split at h
  · exact ((Prod.mk.injEq _ _ _ _ ▸ h).1).symm
  · split at h
    · exact ((Prod.mk.injEq _ _ _ _ ▸ h).1).symm
    · simp at h

/-- State effect of a delete reaching the store: the key is filtered out. -/
theorem deleteService_none_state (c : Cluster) (ns nm : String) :
    (deleteService none c ns nm).1 =
      { c with services := c.services.filter (fun s => !(svcKeyMatch nm ns s)) } := rfl

/-- State effect of an Access delete reaching the store. -/
theorem deleteAccess_none_state (c : Cluster) (ns nm : String) :
    (deleteAccess none c ns nm).1 =
      { c with accesses := c.accesses.filter (fun a => !(accKeyMatch nm ns a)) } := rfl

/-- Every Service matches its own key. -/
theorem svcKeyMatch_self (s : Service) : svcKeyMatch s.name s.ns s = true := by
  simp [svcKeyMatch]

/-- Every Access matches its own key. -/
theorem accKeyMatch_self (a : Access) : accKeyMatch a.name a.ns a = true := by
  simp [accKeyMatch]

/-- Key mismatch between two Services is symmetric. -/
theorem svcKeyMatch_false_symm {s t : Service} (h : svcKeyMatch t.name t.ns s = false) :
    svcKeyMatch s.name s.ns t = false := by
  simp only [svcKeyMatch, Bool.and_eq_false_iff, beq_eq_false_iff_ne, ne_eq] at h ⊢
  rcases h with h | h
  · exact Or.inl (fun hx => h hx.symm)
  · exact Or.inr (fun hx => h hx.symm)

/-- Splitting a false `any` over a cons cell. -/
theorem any_cons_false {α : Type} {p : α → Bool} {a : α} {l : List α}
    (h : (a :: l).any p = false) : p a = false ∧ l.any p = false := by
  simpa [List.any_cons, Bool.or_eq_false_iff] using h

/-- Deleting a Service by its own key from the front of a list it does not
otherwise occur in removes exactly that Service. -/
theorem svcFilter_cons_self (sv : Service) (l : List Service)
    (h : l.any (svcKeyMatch sv.name sv.ns) = false) :
    (sv :: l).filter (fun s => !(svcKeyMatch sv.name sv.ns s)) = l := by
  rw [List.filter_cons]
  simp only [svcKeyMatch_self, Bool.not_true, Bool.false_eq_true, if_false]
  exact filter_not_eq_self _ _ h

/-- Deleting an Access by its own key from the front of a list it does not
otherwise occur in removes exactly that Access. -/
theorem accFilter_cons_self (a : Access) (l : List Access)
    (h : l.any (accKeyMatch a.name a.ns) = false) :
    (a :: l).filter (fun x => !(accKeyMatch a.name a.ns x)) = l := by
  rw [List.filter_cons]
  simp only [accKeyMatch_self, Bool.not_true, Bool.false_eq_true, if_false]
  exact filter_not_eq_self _ _ h

/-- C1: for every full direct grant creation (requestClusterAccess) that
fails at any step after the first clone was created, the rollback deletes
exactly the already-created objects of that grant -- the target-clone
failure deletes the source clone, a source-Access failure deletes both
clones, a target-Access failure deletes both clones and the source Access --
so (the rollback deletes reaching the store) zero Service clones and zero
Access declarations remain under the correlation id; and the error reaching
the caller is the original step's failure for every outcome of the rollback
deletes. -/
theorem C1_failed_grant_rollback_complete (hash : String → String) (inj : GrantInj)
    (cloneID user : String) (p : Payload) (c cOut : Cluster) (step : GrantStep)
    (hfresh : svcCount c cloneID = 0 ∧ accCount c cloneID = 0)
    (hrb : inj.delSourceClone = none ∧ inj.delTargetClone = none ∧
      inj.delSourceAccess = none)
    (hrun : createClusterAccess hash inj cloneID user p c = (cOut, some step))
    (hafter : step = GrantStep.cloneTarget ∨ step = GrantStep.accessSource ∨
      step = GrantStep.accessTarget) :
    svcCount cOut cloneID = 0 ∧ accCount cOut cloneID = 0 ∧
    ∀ d1 d2 d3 : Option K8sErr,
      (createClusterAccess hash
        { inj with delSourceClone := d1, delTargetClone := d2, delSourceAccess := d3 }
        cloneID user p c).2 = some step := by
  obtain ⟨hfs, hfa⟩ := hfresh
  obtain ⟨hd1, hd2, hd3⟩ := hrb
  simp only [createClusterAccess] at hrun
  split at hrun
  · obtain ⟨hc, hstep⟩ := Prod.mk.injEq _ _ _ _ ▸ hrun
    injection hstep with hstep
    simp [← hstep] at hafter
  next ops hports =>
    split at hrun
    case _ sNs sName tNs tName hsrcEq htgtEq =>
      split at hrun
      next c1 e1 h1 =>
        obtain ⟨hc, hstep⟩ := Prod.mk.injEq _ _ _ _ ▸ hrun
        injection hstep with hstep
        simp [← hstep] at hafter
      next c1 srcClone h1 =>
        obtain ⟨hn1, hns1, hl1, hc1, hany1⟩ := cloneService_ok h1
        have hdelSrc : (srcClone :: c.services).filter
            (fun s => !(svcKeyMatch srcClone.name srcClone.ns s)) = c.services :=
          svcFilter_cons_self _ _ (by rw [hn1, hns1]; exact hany1)
        split at hrun
        next c2 e2 h2 =>
          have hc2 : c2 = c1 := cloneService_err h2
          obtain ⟨hc, hstep⟩ := Prod.mk.injEq _ _ _ _ ▸ hrun
          injection hstep with hstep
          subst hstep
          rw [hc2, hc1, hd1] at hc
          rw [← hc, deleteService_none_state]
          refine ⟨?_, ?_, ?_⟩
          · simp only [svcCount, clonesFor]
            rw [hdelSrc]
            exact hfs
          · exact hfa
          · intro d1 d2 d3
            simp [createClusterAccess, hports, hsrcEq, htgtEq, h1, h2]
        next c2 tgtClone h2 =>
          obtain ⟨hn2, hns2, hl2, hc2, hany2⟩ := cloneService_ok h2
          rw [hc1] at hany2
          simp only at hany2
          obtain ⟨hmix, hany2t⟩ := any_cons_false hany2
          have hmix2 : svcKeyMatch srcClone.name srcClone.ns tgtClone = false := by
            apply svcKeyMatch_false_symm
            rw [hn2, hns2]
            exact hmix
          have hdelTwo : ∀ l : List Service,
              (tgtClone :: l).filter
                (fun s => !(svcKeyMatch srcClone.name srcClone.ns s)) =
              tgtClone :: l.filter (fun s => !(svcKeyMatch srcClone.name srcClone.ns s)) := by
            intro l
            rw [List.filter_cons]
            simp [hmix2]
          have hdelTgt : (tgtClone :: c.services).filter
              (fun s => !(svcKeyMatch tgtClone.name tgtClone.ns s)) = c.services :=
            svcFilter_cons_self _ _ (by rw [hn2, hns2]; exact hany2t)
          split at hrun
          next c3 e3 h3 =>
            have hc3 : c3 = c2 := createAccess_err h3
            obtain ⟨hc, hstep⟩ := Prod.mk.injEq _ _ _ _ ▸ hrun
            injection hstep with hstep
            subst hstep
            rw [← hc]
            simp only [hc3, hc2, hc1, hd1, hd2, deleteService_none_state]
            refine ⟨?_, ?_, ?_⟩
            · simp only [svcCount, clonesFor]
              rw [hdelTwo, hdelSrc, hdelTgt]
              exact hfs
            · exact hfa
            · intro d1 d2 d3
              simp [createClusterAccess, hports, hsrcEq, htgtEq, h1, h2, h3]
          next c3 h3 =>
            obtain ⟨hc3, hanyA⟩ := createAccess_ok h3
            simp only [hc2, hc1, mkGrantAccess_name, mkGrantAccess_ns] at hanyA
            split at hrun
            next c4 e4 h4 =>
              have hc4 : c4 = c3 := createAccess_err h4
              obtain ⟨hc, hstep⟩ := Prod.mk.injEq _ _ _ _ ▸ hrun
              injection hstep with hstep
              subst hstep
              rw [← hc]
              simp only [hc4, hc3, hc2, hc1, hd1, hd2, hd3,
                deleteService_none_state, deleteAccess_none_state,
                mkGrantAccess_name, mkGrantAccess_ns]
              refine ⟨?_, ?_, ?_⟩
              · simp only [svcCount, clonesFor]
                rw [hdelTwo, hdelSrc, hdelTgt]
                exact hfs
              · simp only [accCount, accessesWith]
                rw [List.filter_cons]
                simp only [accKeyMatch_mkGrantAccess, Bool.not_true, Bool.false_eq_true,
                  if_false]
                rw [filter_not_eq_self _ _ hanyA]
                exact hfa
              · intro d1 d2 d3
                simp [createClusterAccess, hports, hsrcEq, htgtEq, h1, h2, h3, h4]
            next c4 h4 =>
              obtain ⟨hc, hstep⟩ := Prod.mk.injEq _ _ _ _ ▸ hrun
              simp at hstep
    next l1 l2 =>
      obtain ⟨hc, hstep⟩ := Prod.mk.injEq _ _ _ _ ▸ hrun
      injection hstep with hstep
      simp [← hstep] at hafter

/-- Witness for C1: a concrete run that fails creating the target Access is
rolled back to the original cluster, and the reported step is the original
failure for every rollback-delete outcome. -/
theorem C1_failed_grant_rollback_complete_witness :
    svcCount demoCluster "0123456789" = 0 ∧ accCount demoCluster "0123456789" = 0 ∧
    ∀ d1 d2 d3 : Option K8sErr,
      (createClusterAccess demoHash
        { accessTarget := some (K8sErr.transient 3), delSourceClone := d1,
          delTargetClone := d2, delSourceAccess := d3 }
        "0123456789" "alice" demoPayload demoCluster).2 =
        some GrantStep.accessTarget :=
  C1_failed_grant_rollback_complete demoHash
    { accessTarget := some (K8sErr.transient 3) } "0123456789" "alice"
    demoPayload demoCluster demoCluster GrantStep.accessTarget
    ⟨by decide, by decide⟩ ⟨rfl, rfl, rfl⟩ (by decide) (by decide)

/-- C2: for every successful full direct grant creation
(requestClusterAccess), exactly two Service clones and exactly two Access
declarations exist afterwards sharing the correlation id, the two Access
declarations sit on the source and target side respectively, and their
directions are reciprocal: requested "ingress" gives source-side ingress and
target-side egress, "egress" the mirror image, anything else "all" on both
sides. -/
theorem C2_successful_grant_reciprocal_pair (hash : String → String) (inj : GrantInj)
    (cloneID user : String) (p : Payload) (c cOut : Cluster)
    (hfresh : svcCount c cloneID = 0 ∧ accCount c cloneID = 0)
    (hrun : createClusterAccess hash inj cloneID user p c = (cOut, none)) :
    svcCount cOut cloneID = 2 ∧ accCount cOut cloneID = 2 ∧
    ∃ sourceNs sourceName targetNs targetName : String, ∃ ta sa : Access,
      splitCh '/' p.sourceService = [sourceNs, sourceName] ∧
      splitCh '/' p.targetService = [targetNs, targetName] ∧
      accessesWith cOut cloneID = [ta, sa] ∧
      sa.name = "access-" ++ fullCloneName hash sourceName (randSuffixOf cloneID) ∧
      sa.ns = sourceNs ∧
      ta.name = "access-" ++ fullCloneName hash targetName (randSuffixOf cloneID) ∧
      ta.ns = targetNs ∧
      ((p.direction = "ingress" ∧ sa.direction = "ingress" ∧ ta.direction = "egress") ∨
       (p.direction = "egress" ∧ sa.direction = "egress" ∧ ta.direction = "ingress") ∨
       (p.direction ≠ "ingress" ∧ p.direction ≠ "egress" ∧
        sa.direction = "all" ∧ ta.direction = "all")) := by
  obtain ⟨hfs, hfa⟩ := hfresh
  have hfsNil : clonesFor c.services cloneID = [] := List.length_eq_zero.mp hfs
  have hfaNil : c.accesses.filter (fun a => hasReqId a.labels cloneID) = [] :=
    List.length_eq_zero.mp hfa
  simp only [createClusterAccess] at hrun
  split at hrun
  · simp at hrun
  next ops hports =>
    split at hrun
    case _ sNs sName tNs tName hsrcEq htgtEq =>
      split at hrun
      next c1 e1 h1 => simp at hrun
      next c1 srcClone h1 =>
        obtain ⟨hn1, hns1, hl1, hc1, hany1⟩ := cloneService_ok h1
        split at hrun
        next c2 e2 h2 => simp at hrun
        next c2 tgtClone h2 =>
          obtain ⟨hn2, hns2, hl2, hc2, hany2⟩ := cloneService_ok h2
          split at hrun
          next c3 e3 h3 => simp at hrun
          next c3 h3 =>
            obtain ⟨hc3, hanyA⟩ := createAccess_ok h3
            split at hrun
            next c4 e4 h4 => simp at hrun
            next c4 h4 =>
              obtain ⟨hc4, hanyB⟩ := createAccess_ok h4
              obtain ⟨hc, _⟩ := Prod.mk.injEq _ _ _ _ ▸ hrun
              rw [← hc]
              simp only [hc4, hc3, hc2, hc1]
              refine ⟨?_, ?_, ?_⟩
              · simp only [svcCount, clonesFor, List.filter_cons, hl1, hl2,
                  hasReqId_requestLabel, if_true]
                simp only [clonesFor] at hfsNil
                rw [hfsNil]
                rfl
              · simp only [accCount, accessesWith, List.filter_cons,
                  mkGrantAccess_labels, hasReqId_accessLabels, if_true]
                rw [hfaNil]
                rfl
              · refine ⟨sNs, sName, tNs, tName,
                  mkGrantAccess user cloneID
                    ("access-" ++ fullCloneName hash tName (randSuffixOf cloneID)) tNs
                    (grantDirections p.direction).2
                    (if p.duration > 0 then toString p.duration ++ "s" else "")
                    { serviceName := srcClone.name, ns := srcClone.ns },
                  mkGrantAccess user cloneID
                    ("access-" ++ fullCloneName hash sName (randSuffixOf cloneID)) sNs
                    (grantDirections p.direction).1
                    (if p.duration > 0 then toString p.duration ++ "s" else "")
                    { serviceName := tgtClone.name, ns := tgtClone.ns },
                  hsrcEq, htgtEq, ?_, ?_, ?_, ?_, ?_, ?_⟩
                · simp only [accessesWith, List.filter_cons, mkGrantAccess_labels,
                    hasReqId_accessLabels, if_true]
                  rw [hfaNil]
                · simp
                · simp [hns1]
                · simp
                · simp [hns2]
                · by_cases hI : p.direction = "ingress"
                  · refine Or.inl ⟨hI, ?_, ?_⟩ <;>
                      simp [grantDirections, hI]
                  · by_cases hE : p.direction = "egress"
                    · refine Or.inr (Or.inl ⟨hE, ?_, ?_⟩) <;>
                        simp [grantDirections, hI, hE]
                    · refine Or.inr (Or.inr ⟨hI, hE, ?_, ?_⟩) <;>
                        simp [grantDirections, hI, hE]
    next l1 l2 => simp at hrun

/-- Witness for C2: the worked ingress example creates exactly the
reciprocal pair. -/
theorem C2_successful_grant_reciprocal_pair_witness :
    svcCount (createClusterAccess demoHash {} "0123456789" "alice" demoPayload
      demoCluster).1 "0123456789" = 2 ∧
    accCount (createClusterAccess demoHash {} "0123456789" "alice" demoPayload
      demoCluster).1 "0123456789" = 2 ∧
    ∃ sourceNs sourceName targetNs targetName : String, ∃ ta sa : Access,
      splitCh '/' demoPayload.sourceService = [sourceNs, sourceName] ∧
      splitCh '/' demoPayload.targetService = [targetNs, targetName] ∧
      accessesWith (createClusterAccess demoHash {} "0123456789" "alice" demoPayload
        demoCluster).1 "0123456789" = [ta, sa] ∧
      sa.name = "access-" ++ fullCloneName demoHash sourceName (randSuffixOf "0123456789") ∧
      sa.ns = sourceNs ∧
      ta.name = "access-" ++ fullCloneName demoHash targetName (randSuffixOf "0123456789") ∧
      ta.ns = targetNs ∧
      ((demoPayload.direction = "ingress" ∧ sa.direction = "ingress" ∧
          ta.direction = "egress") ∨
       (demoPayload.direction = "egress" ∧ sa.direction = "egress" ∧
          ta.direction = "ingress") ∨
       (demoPayload.direction ≠ "ingress" ∧ demoPayload.direction ≠ "egress" ∧
          sa.direction = "all" ∧ ta.direction = "all")) :=
  C2_successful_grant_reciprocal_pair demoHash {} "0123456789" "alice" demoPayload
    demoCluster _ ⟨by decide, by decide⟩ (by decide)

/-- C3: the round-trip the spec asserts between the forward-reference target
stored at submission time and the clone name created at approval time fails
on the code: submission stores "netwatch-clone-" ++ remoteName ++ "-" ++
suffix while approval creates "nc-" ++ remoteName ++ "-" ++ suffix.  On the
worked example the two names differ, the stored target matches no Service
that ever exists, and only the count part of the claim (2 clones, 2 Access
declarations under the request id, request record gone) holds. -/
theorem C3_forward_reference_mismatch :
    demoSubmit.2 = none ∧ demoApprove.2 = none ∧
    demoSubmit.1.accesses.map (fun a => a.targets.map (fun t => t.serviceName)) =
      [[forwardRefName "svc2" (randSuffixOf "0123456789")]] ∧
    forwardRefName "svc2" (randSuffixOf "0123456789") = "netwatch-clone-svc2-30313233" ∧
    sideCloneName "svc2" (randSuffixOf "0123456789") = "nc-svc2-30313233" ∧
    forwardRefName "svc2" (randSuffixOf "0123456789") ≠
      sideCloneName "svc2" (randSuffixOf "0123456789") ∧
    demoApprove.1.services.map (fun s => s.name) =
      ["nc-svc2-30313233", "nc-svc1-30313233", "svc1", "svc2"] ∧
    forwardRefName "svc2" (randSuffixOf "0123456789") ∉
      demoApprove.1.services.map (fun s => s.name) ∧
    svcCount demoApprove.1 "0123456789" = 2 ∧
    accCount demoApprove.1 "0123456789" = 2 ∧
    demoApprove.1.requests = [] := by
  decide

/-- The per-side direction mapping stated extensionally. -/
theorem sideDirection_eq_prop (dir : String) (b : Bool) :
    sideDirection dir b =
      if (dir = "egress" ∧ b = true) ∨ (dir = "ingress" ∧ b = false) then "egress"
      else if (dir = "ingress" ∧ b = true) ∨ (dir = "egress" ∧ b = false) then "ingress"
      else "all" := by
  cases b <;> by_cases h1 : dir = "egress" <;> by_cases h2 : dir = "ingress" <;>
    simp_all [sideDirection]

/-- A successful single-sided creation stores its Access at the head of the
access list, with the side-mapped direction. -/
theorem createPartialAccess_head {inj : SideInj}
    {user localNs localName remoteNs remoteName reqID : String} {p : Payload}
    {isSrc : Bool} {c cOut : Cluster} {cn : String}
    (h : createPartialAccess inj user localNs localName remoteNs remoteName reqID p
      isSrc c = (cOut, Except.ok cn)) :
    ∃ rest, cOut.accesses =
      mkGrantAccess user reqID ("access-" ++ sideCloneName localName (randSuffixOf reqID))
        localNs (sideDirection p.direction isSrc) (toString p.duration ++ "s")
        { serviceName := forwardRefName remoteName (randSuffixOf reqID), ns := remoteNs } ::
      rest ∧ cn = sideCloneName localName (randSuffixOf reqID) := by
  simp only [createPartialAccess] at h
  split at h
  · simp at h
  next ops hports =>
    split at h
    next c1 e1 h1 => simp at h
    next c1 sv h1 =>
      obtain ⟨hn1, hns1, hl1, hc1, hany1⟩ := cloneService_ok h1
      split at h
      next c2 e2 h2 => simp at h
      next c2 h2 =>
        obtain ⟨hc2, _⟩ := createAccess_ok h2
        obtain ⟨hc, hcn⟩ := Prod.mk.injEq _ _ _ _ ▸ h
        injection hcn with hcn
        refine ⟨c1.accesses, ?_, hcn.symm⟩
        rw [← hc, hc2]

/-- A successful approvePartialCore run stores its Access at the head of the
access list, with the side flag taken from the stored status. -/
theorem approvePartialCore_head {inj : SideInj}
    {user localNs localName remoteNs existingCloneName : String}
    {req : AccessRequest} {c cOut : Cluster}
    (h : approvePartialCore inj user localNs localName remoteNs existingCloneName
      req c = (cOut, none)) :
    ∃ rest, cOut.accesses =
      mkGrantAccess user req.requestID
        ("access-" ++ sideCloneName localName (randSuffixOf req.requestID))
        localNs (sideDirection req.direction (req.status == "PendingSource"))
        (toString req.duration ++ "s")
        { serviceName := existingCloneName, ns := remoteNs } :: rest := by
  simp only [approvePartialCore] at h
  split at h
  · simp at h
  next ops hports =>
    split at h
    next c1 e1 h1 => simp at h
    next c1 sv h1 =>
      split at h
      next c2 e2 h2 => simp at h
      next c2 h2 =>
        obtain ⟨hc2, _⟩ := createAccess_ok h2
        obtain ⟨hc, _⟩ := Prod.mk.injEq _ _ _ _ ▸ h
        refine ⟨c1.accesses, ?_⟩
        rw [← hc, hc2]

/-- C8: the direction of every single-sided Access declaration is a function
of the requested direction and the local side: egress-and-source or
ingress-and-target gives "egress", ingress-and-source or egress-and-target
gives "ingress", anything else gives "all"; at approval the side flag is
isSource = (status = "PendingSource"). -/
theorem C8_side_direction_mapping (inj : SideInj)
    (user localNs localName remoteNs remoteName reqID : String) (p : Payload)
    (isSrc : Bool) (req : AccessRequest) (side : Bool) (c c2 cOut cOut2 : Cluster)
    (cn : String) :
    (createPartialAccess inj user localNs localName remoteNs remoteName reqID p
        isSrc c = (cOut, Except.ok cn) →
      ∃ a rest, cOut.accesses = a :: rest ∧
        a.direction =
          (if (p.direction = "egress" ∧ isSrc = true) ∨
              (p.direction = "ingress" ∧ isSrc = false) then "egress"
           else if (p.direction = "ingress" ∧ isSrc = true) ∨
              (p.direction = "egress" ∧ isSrc = false) then "ingress"
           else "all")) ∧
    (approvePartialRequest inj user req side c2 = (cOut2, none) →
      ∃ a rest, cOut2.accesses = a :: rest ∧
        a.direction =
          (if (req.direction = "egress" ∧ req.status = "PendingSource") ∨
              (req.direction = "ingress" ∧ req.status ≠ "PendingSource") then "egress"
           else if (req.direction = "ingress" ∧ req.status = "PendingSource") ∨
              (req.direction = "egress" ∧ req.status ≠ "PendingSource") then "ingress"
           else "all")) := by
  constructor
  · intro h
    obtain ⟨rest, hacc, _⟩ := createPartialAccess_head h
    refine ⟨_, rest, hacc, ?_⟩
    rw [mkGrantAccess_direction, sideDirection_eq_prop]
  · intro h
    cases side with
    | true =>
      simp only [approvePartialRequest, if_true] at h
      obtain ⟨rest, hacc⟩ := approvePartialCore_head h
      refine ⟨_, rest, hacc, ?_⟩
      rw [mkGrantAccess_direction, sideDirection_eq_prop]
      simp only [beq_iff_eq, beq_eq_false_iff_ne, ne_eq]
    | false =>
      simp only [approvePartialRequest, if_false] at h
      obtain ⟨rest, hacc⟩ := approvePartialCore_head h
      refine ⟨_, rest, hacc, ?_⟩
      rw [mkGrantAccess_direction, sideDirection_eq_prop]
      simp only [beq_iff_eq, beq_eq_false_iff_ne, ne_eq]

/-- Witness for C8: a concrete egress-from-source submission yields an
egress Access, and a concrete PendingSource approval yields an egress
Access. -/
theorem C8_side_direction_mapping_witness :
    (∃ a rest,
      (createPartialAccess {} "alice" "team-a" "svc1" "team-b" "svc2" "0123456789"
        demoPayloadEgress true demoCluster).1.accesses =
        a :: rest ∧ a.direction = "egress") ∧
    (∃ a rest,
      (approvePartialRequest {} "bob" demoPendingSource true
        demoCluster).1.accesses = a :: rest ∧ a.direction = "egress") := by
  constructor
  · obtain ⟨a, rest, hacc, hdir⟩ :=
      (C8_side_direction_mapping {} "alice" "team-a" "svc1" "team-b" "svc2" "0123456789"
        demoPayloadEgress true demoPendingSource true demoCluster demoCluster
        (createPartialAccess {} "alice" "team-a" "svc1" "team-b" "svc2" "0123456789"
          demoPayloadEgress true demoCluster).1
        demoCluster "nc-svc1-30313233").1 (by rfl)
    exact ⟨a, rest, hacc, by rw [hdir]; decide⟩
  · obtain ⟨a, rest, hacc, hdir⟩ :=
      (C8_side_direction_mapping {} "bob" "team-a" "svc1" "team-b" "svc2" "0123456789"
        demoPayloadEgress true demoPendingSource true demoCluster demoCluster
        demoCluster
        (approvePartialRequest {} "bob" demoPendingSource true demoCluster).1
        "nc-svc1-30313233").2 (by rfl)
    exact ⟨a, rest, hacc, by rw [hdir]; decide⟩

/-- Characterization of a successful createAccessRequestAsApp call. -/
theorem createAccessRequestAsApp_ok {inj : Option K8sErr} {c : Cluster}
    {req : AccessRequest} {c2 : Cluster}
    (h : createAccessRequestAsApp inj c req = (c2, none)) :
    c2 = { c with requests := req :: c.requests } := by
  simp only [createAccessRequestAsApp] at h
  split at h
  · simp at h
  · split at h
    · simp at h
    · exact ((Prod.mk.injEq _ _ _ _ ▸ h).1).symm

/-- Full characterization of a successful createPartialAccess run: the
returned clone name, the created clone and the created Access. -/
theorem createPartialAccess_ok {inj : SideInj}
    {user localNs localName remoteNs remoteName reqID : String} {p : Payload}
    {isSrc : Bool} {c cOut : Cluster} {cn : String}
    (h : createPartialAccess inj user localNs localName remoteNs remoteName reqID p
      isSrc c = (cOut, Except.ok cn)) :
    cn = sideCloneName localName (randSuffixOf reqID) ∧
    ∃ sv : Service, sv.name = sideCloneName localName (randSuffixOf reqID) ∧
      sv.ns = localNs ∧ sv.labels = [(reqIdKey, reqID)] ∧
      cOut = { c with
        services := sv :: c.services,
        accesses :=
          mkGrantAccess user reqID
            ("access-" ++ sideCloneName localName (randSuffixOf reqID)) localNs
            (sideDirection p.direction isSrc) (toString p.duration ++ "s")
            { serviceName := forwardRefName remoteName (randSuffixOf reqID),
              ns := remoteNs } :: c.accesses } := by
  simp only [createPartialAccess] at h
  split at h
  · simp at h
  next ops hports =>
    split at h
    next c1 e1 h1 => simp at h
    next c1 sv h1 =>
      obtain ⟨hn1, hns1, hl1, hc1, hany1⟩ := cloneService_ok h1
      split at h
      next c2 e2 h2 => simp at h
      next c2 h2 =>
        obtain ⟨hc2, _⟩ := createAccess_ok h2
        obtain ⟨hc, hcn⟩ := Prod.mk.injEq _ _ _ _ ▸ h
        injection hcn with hcn
        refine ⟨hcn.symm, sv, hn1, hns1, hl1, ?_⟩
        rw [← hc, hc2, hc1]

/-- C5: for every service-to-service submission for review, the created
AccessRequest status is determined by the per-side permission verdicts --
both sides or neither side gives "PendingFull" with no clone or Access
created; exactly the source side creates the source clone and one Access
and stores the clone name under status "PendingTarget"; exactly the target
side is the mirror with "PendingSource" -- and every external submission
gives "PendingFull". -/
theorem C5_submission_status_mapping (inj : SubmitInj) (canSource canTarget : Bool)
    (requestID user email : String) (p : Payload) (c cOut : Cluster)
    (hfresh : svcCount c requestID = 0 ∧ accCount c requestID = 0)
    (hrun : handleSubmitAccessRequest inj canSource canTarget requestID user email p c =
      (cOut, none)) :
    ∃ req rest, cOut.requests = req :: rest ∧
      req.name = "ar-" ++ user ++ "-" ++ String.mk (requestID.data.take 8) ∧
      (p.targetService = "" →
        req.requestType = "External" ∧ req.status = "PendingFull" ∧
        cOut.services = c.services ∧ cOut.accesses = c.accesses) ∧
      (p.targetService ≠ "" →
        req.requestType = "Service" ∧
        (canSource = true → canTarget = true →
          req.status = "PendingFull" ∧
          cOut.services = c.services ∧ cOut.accesses = c.accesses) ∧
        (canSource = true → canTarget = false →
          req.status = "PendingTarget" ∧
          (∃ sourceNs sourceName : String,
            splitCh '/' p.sourceService = [sourceNs, sourceName] ∧
            req.sourceCloneName = sideCloneName sourceName (randSuffixOf requestID)) ∧
          svcCount cOut requestID = 1 ∧ accCount cOut requestID = 1) ∧
        (canSource = false → canTarget = true →
          req.status = "PendingSource" ∧
          (∃ targetNs targetName : String,
            splitCh '/' p.targetService = [targetNs, targetName] ∧
            req.targetCloneName = sideCloneName targetName (randSuffixOf requestID)) ∧
          svcCount cOut requestID = 1 ∧ accCount cOut requestID = 1) ∧
        (canSource = false → canTarget = false →
          req.status = "PendingFull" ∧
          cOut.services = c.services ∧ cOut.accesses = c.accesses)) := by
  obtain ⟨hfs, hfa⟩ := hfresh
  have hfsNil : List.filter (fun s => hasReqId s.labels requestID) c.services = [] :=
    List.length_eq_zero.mp hfs
  have hfaNil : List.filter (fun a => hasReqId a.labels requestID) c.accesses = [] :=
    List.length_eq_zero.mp hfa
  simp only [handleSubmitAccessRequest] at hrun
  split at hrun
  · simp at hrun
  · split at hrun
    next hsvcMode =>
      split at hrun
      case _ sNs sName tNs tName hsrcEq htgtEq =>
        have hne : p.targetService ≠ "" := by
          simpa [bne_iff_ne] using hsvcMode
        split at hrun
        next hboth =>
          split at hrun
          next c1 e1 h1 => simp at hrun
          next c1 h1 =>
            have hc1 := createAccessRequestAsApp_ok h1
            obtain ⟨hc, _⟩ := Prod.mk.injEq _ _ _ _ ▸ hrun
            rw [← hc, hc1]
            obtain ⟨hA, hB⟩ := Bool.and_eq_true .. |>.mp hboth
            refine ⟨_, c.requests, rfl, rfl, ?_, ?_⟩
            · intro hempty; exact absurd hempty hne
            · intro _
              refine ⟨rfl, fun _ _ => ⟨rfl, rfl, rfl⟩, ?_, ?_, ?_⟩
              · intro _ hT; rw [hB] at hT; cases hT
              · intro hS; rw [hA] at hS; cases hS
              · intro hS; rw [hA] at hS; cases hS
        next hnotboth =>
          split at hrun
          next hcanS =>
            split at hrun
            next c1 e1 h1 => simp at hrun
            next c1 cloneName h1 =>
              obtain ⟨hcn, sv, hsvn, hsvns, hsvl, hc1⟩ := createPartialAccess_ok h1
              split at hrun
              next c2 e2 h2 => simp at hrun
              next c2 h2 =>
                have hc2 := createAccessRequestAsApp_ok h2
                obtain ⟨hc, _⟩ := Prod.mk.injEq _ _ _ _ ▸ hrun
                rw [← hc, hc2, hc1]
                have hT : canTarget = false := by
                  cases hcT : canTarget
                  · rfl
                  · rw [hcanS, hcT] at hnotboth; simp at hnotboth
                refine ⟨_, _, rfl, rfl, ?_, ?_⟩
                · intro hempty; exact absurd hempty hne
                · intro _
                  refine ⟨rfl, ?_, ?_, ?_, ?_⟩
                  · intro _ hT2; rw [hT] at hT2; cases hT2
                  · intro _ _
                    refine ⟨rfl, ⟨sNs, sName, hsrcEq, hcn⟩, ?_, ?_⟩
                    · simp only [svcCount, clonesFor, List.filter_cons, hsvl,
                        hasReqId_requestLabel, if_true, hfsNil]
                      rfl
                    · simp only [accCount, accessesWith, List.filter_cons,
                        mkGrantAccess_labels, hasReqId_accessLabels, if_true, hfaNil]
                      rfl
                  · intro hS; rw [hcanS] at hS; cases hS
                  · intro hS; rw [hcanS] at hS; cases hS
          next hnotS =>
            have hS : canSource = false := by
              cases hcS : canSource
              · rfl
              · rw [hcS] at hnotS; simp at hnotS
            split at hrun
            next hcanT =>
              split at hrun
              next c1 e1 h1 => simp at hrun
              next c1 cloneName h1 =>
                obtain ⟨hcn, sv, hsvn, hsvns, hsvl, hc1⟩ := createPartialAccess_ok h1
                split at hrun
                next c2 e2 h2 => simp at hrun
                next c2 h2 =>
                  have hc2 := createAccessRequestAsApp_ok h2
                  obtain ⟨hc, _⟩ := Prod.mk.injEq _ _ _ _ ▸ hrun
                  rw [← hc, hc2, hc1]
                  refine ⟨_, _, rfl, rfl, ?_, ?_⟩
                  · intro hempty; exact absurd hempty hne
                  · intro _
                    refine ⟨rfl, ?_, ?_, ?_, ?_⟩
                    · intro hS2 _; rw [hS] at hS2; cases hS2
                    · intro hS2 _; rw [hS] at hS2; cases hS2
                    · intro _ _
                      refine ⟨rfl, ⟨tNs, tName, htgtEq, hcn⟩, ?_, ?_⟩
                      · simp only [svcCount, clonesFor, List.filter_cons, hsvl,
                          hasReqId_requestLabel, if_true, hfsNil]
                        rfl
                      · simp only [accCount, accessesWith, List.filter_cons,
                          mkGrantAccess_labels, hasReqId_accessLabels, if_true, hfaNil]
                        rfl
                    · intro _ hT2; rw [hcanT] at hT2; cases hT2
            next hnotT =>
              have hT : canTarget = false := by
                cases hcT : canTarget
                · rfl
                · rw [hcT] at hnotT; simp at hnotT
              split at hrun
              next c1 e1 h1 => simp at hrun
              next c1 h1 =>
                have hc1 := createAccessRequestAsApp_ok h1
                obtain ⟨hc, _⟩ := Prod.mk.injEq _ _ _ _ ▸ hrun
                rw [← hc, hc1]
                refine ⟨_, c.requests, rfl, rfl, ?_, ?_⟩
                · intro hempty; exact absurd hempty hne
                · intro _
                  refine ⟨rfl, ?_, ?_, ?_, fun _ _ => ⟨rfl, rfl, rfl⟩⟩
                  · intro hS2 _; rw [hS] at hS2; cases hS2
                  · intro hS2 _; rw [hS] at hS2; cases hS2
                  · intro _ hT2; rw [hT] at hT2; cases hT2
      next l1 l2 => simp at hrun
    next hextMode =>
      have hempty : p.targetService = "" := by
        by_cases hx : p.targetService = ""
        · exact hx
        · exact absurd (by simpa [bne_iff_ne] using hx) hextMode
      split at hrun
      next c1 e1 h1 => simp at hrun
      next c1 h1 =>
        have hc1 := createAccessRequestAsApp_ok h1
        obtain ⟨hc, _⟩ := Prod.mk.injEq _ _ _ _ ▸ hrun
        rw [← hc, hc1]
        refine ⟨_, c.requests, rfl, rfl, ?_, ?_⟩
        · intro _; exact ⟨rfl, rfl, rfl, rfl⟩
        · intro hne2; exact absurd hempty hne2

/-- Witness for C5: the worked source-side-only submission yields a
PendingTarget request with the stored clone name and one clone plus one
Access under the request id. -/
theorem C5_submission_status_mapping_witness :
    ∃ req rest, demoSubmit.1.requests = req :: rest ∧
      req.name = "ar-" ++ "alice" ++ "-" ++ String.mk ("0123456789".data.take 8) ∧
      (demoPayload.targetService = "" →
        req.requestType = "External" ∧ req.status = "PendingFull" ∧
        demoSubmit.1.services = demoCluster.services ∧
        demoSubmit.1.accesses = demoCluster.accesses) ∧
      (demoPayload.targetService ≠ "" →
        req.requestType = "Service" ∧
        (true = true → false = true →
          req.status = "PendingFull" ∧
          demoSubmit.1.services = demoCluster.services ∧
          demoSubmit.1.accesses = demoCluster.accesses) ∧
        (true = true → false = false →
          req.status = "PendingTarget" ∧
          (∃ sourceNs sourceName : String,
            splitCh '/' demoPayload.sourceService = [sourceNs, sourceName] ∧
            req.sourceCloneName = sideCloneName sourceName (randSuffixOf "0123456789")) ∧
          svcCount demoSubmit.1 "0123456789" = 1 ∧
          accCount demoSubmit.1 "0123456789" = 1) ∧
        (true = false → false = true →
          req.status = "PendingSource" ∧
          (∃ targetNs targetName : String,
            splitCh '/' demoPayload.targetService = [targetNs, targetName] ∧
            req.targetCloneName = sideCloneName targetName (randSuffixOf "0123456789")) ∧
          svcCount demoSubmit.1 "0123456789" = 1 ∧
          accCount demoSubmit.1 "0123456789" = 1) ∧
        (true = false → false = false →
          req.status = "PendingFull" ∧
          demoSubmit.1.services = demoCluster.services ∧
          demoSubmit.1.accesses = demoCluster.accesses)) :=
  C5_submission_status_mapping {} true false "0123456789" "alice" "alice@example.com"
    demoPayload demoCluster demoSubmit.1 ⟨by decide, by decide⟩ (by rfl)

/-- Membership of the found request makes the delete-by-name succeed. -/
theorem any_name_of_find {l : List AccessRequest} {nm : String} {req : AccessRequest}
    (h : l.find? (fun r => r.name == nm) = some req) :
    l.any (fun r => r.name == nm) = true := by
  have hp := List.find?_some h
  exact List.any_eq_true.mpr ⟨req, List.mem_of_find?_eq_some h, hp⟩

/-- Counterexample for C4: on the worked PendingTarget request, a transient
failure of the Access delete emits the cleanup error yet the AccessRequest
record is still deleted (the source has no return after that sendError), so
the orphaned Access survives without its tracking request. -/
theorem C4_deny_counterexample :
    (getAccessRequestAsApp demoSubmit.1 "ar-alice-01234567").map (fun r => r.status) =
      some "PendingTarget" ∧
    demoDeny.2 = [DenyEvent.cleanupFailed, DenyEvent.denied true] ∧
    demoDeny.1.requests = [] ∧
    demoDeny.1.accesses.map (fun a => a.name) = ["access-nc-svc1-30313233"] := by
  decide

/-- C4 (amended): for every deny/abort of a partial-status request by its
owner, when the single-sided Access delete fails with a non-NotFound error,
the cleanup failure is reported but the AccessRequest record deletion is
still attempted; when it reaches the store the record is removed while the
Access object survives untouched. -/
theorem C4_deny_cleanup_failure_still_deletes (inj : DenyInj) (userEmail : String)
    (canDeny : Bool) (reqName : String) (c cOut : Cluster) (req : AccessRequest)
    (e : K8sErr) (evs : List DenyEvent)
    (hreq : getAccessRequestAsApp c reqName = some req)
    (hstatus : req.status = "PendingTarget" ∨ req.status = "PendingSource")
    (howner : userEmail = req.requestor)
    (himp : inj.impersonate = none)
    (hdelA : inj.delAccess = some e) (hnf : e.isNotFound = false)
    (hdelR : inj.delRequest = none)
    (hrun : handleDenyAccessRequest inj userEmail canDeny reqName c = (cOut, evs)) :
    evs = [DenyEvent.cleanupFailed, DenyEvent.denied true] ∧
    cOut.accesses = c.accesses ∧
    cOut.requests = c.requests.filter (fun r => !(r.name == reqName)) := by
  subst howner
  have hpresent : c.requests.any (fun r => r.name == reqName) = true :=
    any_name_of_find hreq
  rcases hstatus with hst | hst <;>
  · have hres : handleDenyAccessRequest inj req.requestor canDeny reqName c =
        ({ c with requests := c.requests.filter (fun r => !(r.name == reqName)) },
         [DenyEvent.cleanupFailed, DenyEvent.denied true]) := by
      simp [handleDenyAccessRequest, hreq, himp, hdelA, hdelR, hst, deleteAccess,
        deleteAccessRequestAsApp, hnf, hpresent]
    rw [hres] at hrun
    obtain ⟨hc, hevs⟩ := Prod.mk.injEq _ _ _ _ ▸ hrun
    rw [← hc, ← hevs]
    exact ⟨rfl, rfl, rfl⟩

/-- Witness for C4 (amended): the worked concrete deny run. -/
theorem C4_deny_cleanup_failure_still_deletes_witness :
    demoDeny.2 = [DenyEvent.cleanupFailed, DenyEvent.denied true] ∧
    demoDeny.1.accesses = demoSubmit.1.accesses ∧
    demoDeny.1.requests =
      demoSubmit.1.requests.filter (fun r => !(r.name == "ar-alice-01234567")) :=
  C4_deny_cleanup_failure_still_deletes
    { delAccess := some (K8sErr.transient 5) } "alice@example.com" false
    "ar-alice-01234567" demoSubmit.1 demoDeny.1 demoStoredRequest
    (K8sErr.transient 5) demoDeny.2
    (by decide) (by decide) (by decide) rfl rfl (by decide) rfl (by rfl)

/-- The filtered-out key can no longer be found. -/
theorem any_filter_not {α : Type} (p : α → Bool) (l : List α) :
    (l.filter (fun x => !(p x))).any p = false := by
  induction l with
  | nil => rfl
  | cons a t ih =>
    rw [List.filter_cons]
    by_cases h : p a = true
    · simp [h, ih]
    · have h2 : p a = false := Bool.eq_false_iff.mpr h
      simp [h2, ih]

/-- C6: one reconcileAccessRequest pass on a partial-status request that is
not being deleted checks the expected Access (name "access-" ++ stored clone
name in the completed side's namespace); when that Access does not exist the
request is deleted with an explicit delete call; for any other status, or
when the request is being deleted, the orphan check never fires. -/
theorem C6_orphan_detection (inj : ReqReconInj) (req : AccessRequest) (c : Cluster)
    (cloneName ns : String) :
    ((req.deleting = false →
      (req.status = "PendingTarget" ∨ req.status = "PendingSource") →
      inj.addFinalizerUpdate = none → inj.getAccess = none → inj.deleteRequest = none →
      cloneName = (if req.status == "PendingTarget" then req.sourceCloneName
                   else req.targetCloneName) →
      ns = (if req.status == "PendingTarget" then
              (splitCh '/' req.sourceService).headD ""
            else (splitCh '/' req.targetService).headD "") →
      c.accesses.any (accKeyMatch ("access-" ++ cloneName) ns) = false →
      (reconcileAccessRequest inj req c).2.orphanDeleted = true ∧
      ((reconcileAccessRequest inj req c).1.requests.any
        (fun r => r.name == req.name)) = false)) ∧
    (req.deleting = false → req.status ≠ "PendingTarget" →
      req.status ≠ "PendingSource" →
      (reconcileAccessRequest inj req c).2.orphanDeleted = false) ∧
    (req.deleting = true →
      (reconcileAccessRequest inj req c).2.orphanDeleted = false) := by
  obtain ⟨nm, reqr, rid, rtype, src, tgt, cidr, svc, dir, prt, dur, desc, status,
    scn, tcn, fin, del⟩ := req
  refine ⟨?_, ?_, ?_⟩
  · intro hdel hstatus hupd hget hdelreq hclone hns hmissing
    simp only at hdel hstatus hclone hns ⊢
    subst hdel
    by_cases hfin : fin.contains accessRequestFinalizerName = true <;>
    rcases hstatus with hst | hst <;> subst hst <;>
    · simp only [show (("PendingTarget" : String) == "PendingTarget") = true from
        by decide, show (("PendingSource" : String) == "PendingTarget") = false from
        by decide, if_true, if_false, Bool.false_eq_true] at hclone hns
      subst hclone hns
      simp only [reconcileAccessRequest, Bool.not_false, eq_self_iff_true, if_true,
        hfin, Bool.not_true, Bool.false_eq_true, if_false, updateRequest, hupd,
        hget, hdelreq]
      simp only [show (("PendingTarget" : String) != "PendingTarget") = false from
          by decide,
        show (("PendingTarget" : String) != "PendingSource") = true from by decide,
        show (("PendingSource" : String) != "PendingTarget") = true from by decide,
        show (("PendingSource" : String) != "PendingSource") = false from by decide,
        show (("PendingTarget" : String) == "PendingTarget") = true from by decide,
        show (("PendingSource" : String) == "PendingTarget") = false from by decide,
        Bool.false_and, Bool.true_and, Bool.and_false, Bool.false_eq_true, if_false,
        if_true, eq_self_iff_true]
      rw [hmissing]
      simp only [Bool.false_eq_true, if_false]
      exact ⟨trivial, any_filter_not _ _⟩
  · intro hdel hnt hns2
    simp only at hdel hnt hns2 ⊢
    subst hdel
    have hb : (status != "PendingTarget" && status != "PendingSource") = true := by
      simp [bne_iff_ne, hnt, hns2]
    by_cases hfin : fin.contains accessRequestFinalizerName = true
    · simp only [reconcileAccessRequest, Bool.not_false, eq_self_iff_true, if_true,
        hfin, Bool.not_true, Bool.false_eq_true, if_false, hb]
    · have hfin2 : fin.contains accessRequestFinalizerName = false :=
        Bool.eq_false_iff.mpr hfin
      rcases hu : inj.addFinalizerUpdate with _ | e
      · simp only [reconcileAccessRequest, Bool.not_false, eq_self_iff_true, if_true,
          hfin2, updateRequest, hu, hb, Bool.false_eq_true, if_false]
      · simp only [reconcileAccessRequest, Bool.not_false, eq_self_iff_true, if_true,
          hfin2, updateRequest, hu, hb, Bool.false_eq_true, if_false]
  · intro hdel
    simp only at hdel ⊢
    subst hdel
    by_cases hfin : fin.contains accessRequestFinalizerName = true
    · simp only [reconcileAccessRequest, Bool.not_true, Bool.false_eq_true, if_false,
        hfin, if_true, eq_self_iff_true]
      split
      · rfl
      · split
        · rfl
        · rfl
    · have hfin2 : fin.contains accessRequestFinalizerName = false :=
        Bool.eq_false_iff.mpr hfin
      simp only [reconcileAccessRequest, Bool.not_true, Bool.false_eq_true, if_false,
        hfin2]

/-- Witness for C6: the worked orphaned PendingTarget request (its Access
vanished out-of-band) is deleted in one pass. -/
theorem C6_orphan_detection_witness :
    (reconcileAccessRequest {} demoOrphanRequest demoOrphanCluster).2.orphanDeleted =
      true ∧
    ((reconcileAccessRequest {} demoOrphanRequest demoOrphanCluster).1.requests.any
      (fun r => r.name == demoOrphanRequest.name)) = false :=
  (C6_orphan_detection {} demoOrphanRequest demoOrphanCluster "nc-svc1-30313233"
    "team-a").1 rfl (Or.inl rfl) rfl rfl rfl (by decide) (by decide) (by decide)

/-- Counterexample for C7: when an evaluation failure completes before a
denial, CanPerformAllActions surfaces the error instead of the promised
(false, nil), although one check is denied. -/
theorem C7_denied_with_failure_counterexample :
    CheckOutcome.denied ∈ [CheckOutcome.failed 7, CheckOutcome.denied] ∧
    CanPerformAllActions [CheckOutcome.failed 7, CheckOutcome.denied] ≠
      (false, none) := by
  decide

/-- C7 (amended): CanPerformAllActions is a logical AND over the member
verdicts: all allowed gives (true, nil) and (true, nil) arises only then; a
denial with no evaluation failure gives (false, nil) regardless of the other
verdicts and of completion order; an evaluation failure with no denial
surfaces one failing check's error; when both a denial and a failure occur
the outcome follows whichever completes first. -/
theorem C7_conjunction_semantics (completed : List CheckOutcome) :
    ((∀ o ∈ completed, o = CheckOutcome.allowed) →
      CanPerformAllActions completed = (true, none)) ∧
    (CanPerformAllActions completed = (true, none) →
      ∀ o ∈ completed, o = CheckOutcome.allowed) ∧
    (CheckOutcome.denied ∈ completed →
      (∀ e, CheckOutcome.failed e ∉ completed) →
      CanPerformAllActions completed = (false, none)) ∧
    ((∃ e, CheckOutcome.failed e ∈ completed) →
      CheckOutcome.denied ∉ completed →
      ∃ e, CanPerformAllActions completed = (false, some e) ∧
        CheckOutcome.failed e ∈ completed) := by
  induction completed with
  | nil =>
    refine ⟨fun _ => rfl, fun _ o ho => absurd ho (List.not_mem_nil o), ?_, ?_⟩
    · intro hmem; exact absurd hmem (List.not_mem_nil _)
    · rintro ⟨e, hmem⟩; exact absurd hmem (List.not_mem_nil _)
  | cons o rest ih =>
    obtain ⟨ih1, ih2, ih3, ih4⟩ := ih
    cases o with
    | allowed =>
      refine ⟨?_, ?_, ?_, ?_⟩
      · intro h
        exact ih1 (fun x hx => h x (List.mem_cons_of_mem _ hx))
      · intro h x hx
        rcases List.mem_cons.mp hx with hx | hx
        · rw [hx]
        · exact ih2 h x hx
      · intro hmem hnof
        rcases List.mem_cons.mp hmem with hx | hx
        · cases hx
        · exact ih3 hx (fun e he => hnof e (List.mem_cons_of_mem _ he))
      · rintro ⟨e, hmem⟩ hnod
        rcases List.mem_cons.mp hmem with hx | hx
        · cases hx
        · obtain ⟨e2, heq, hm2⟩ :=
            ih4 ⟨e, hx⟩ (fun hd => hnod (List.mem_cons_of_mem _ hd))
          exact ⟨e2, heq, List.mem_cons_of_mem _ hm2⟩
    | denied =>
      refine ⟨?_, ?_, ?_, ?_⟩
      · intro h
        exact absurd (h CheckOutcome.denied (List.mem_cons_self _ _)) (by simp)
      · intro h; cases h
      · intro _ _; rfl
      · rintro _ hnod
        exact absurd (List.mem_cons_self _ _) hnod
    | failed e =>
      refine ⟨?_, ?_, ?_, ?_⟩
      · intro h
        exact absurd (h (CheckOutcome.failed e) (List.mem_cons_self _ _)) (by simp)
      · intro h; cases h
      · intro _ hnof
        exact absurd (List.mem_cons_self _ _) (hnof e)
      · rintro _ _
        exact ⟨e, rfl, List.mem_cons_self _ _⟩

/-- Witness for C7 (amended): a pure denial folds to (false, nil); a pure
evaluation failure surfaces the error. -/
theorem C7_conjunction_semantics_witness :
    CanPerformAllActions [CheckOutcome.allowed, CheckOutcome.denied] = (false, none) ∧
    (∃ e, CanPerformAllActions [CheckOutcome.failed 7] = (false, some e) ∧
      CheckOutcome.failed e ∈ [CheckOutcome.failed 7]) :=
  ⟨(C7_conjunction_semantics _).2.2.1 (by decide) (fun e => by simp),
   (C7_conjunction_semantics _).2.2.2 ⟨7, by simp⟩ (by decide)⟩

/-- C9: the read-model join classifies each labelled Access declaration by
the number of clones sharing its correlation id: exactly two gives an
"Active" row whose target and source are identified by name+namespace match
of the first declared target against the clones; exactly one gives a
"Pending" row whose displayed target strips the "netwatch-clone-" prefix
and the id-derived suffix from the stored target name; any other count
excludes the declaration from the view (a skip, never an error). -/
theorem C9_readmodel_clone_count_classification (services : List Service)
    (access : Access) (reqID : String)
    (hlbl : lookupL access.labels reqIdKey = some reqID) :
    (∀ clone1 clone2 : Service, clonesFor services reqID = [clone1, clone2] →
      ∃ info, processAccess services access = some info ∧ info.status = "Active" ∧
        (((access.targets.headD ⟨"", ""⟩).serviceName = clone1.name ∧
          (access.targets.headD ⟨"", ""⟩).ns = clone1.ns) →
          info.target = annotOf clone1 clonedFromKey ∧
          info.source = annotOf clone2 clonedFromKey ∧
          info.ports = annotOf clone2 portsKey) ∧
        (¬((access.targets.headD ⟨"", ""⟩).serviceName = clone1.name ∧
           (access.targets.headD ⟨"", ""⟩).ns = clone1.ns) →
         ((access.targets.headD ⟨"", ""⟩).serviceName = clone2.name ∧
          (access.targets.headD ⟨"", ""⟩).ns = clone2.ns) →
          info.target = annotOf clone2 clonedFromKey ∧
          info.source = annotOf clone1 clonedFromKey ∧
          info.ports = annotOf clone1 portsKey)) ∧
    (∀ clone : Service, clonesFor services reqID = [clone] →
      ∃ info, processAccess services access = some info ∧ info.status = "Pending" ∧
        info.source = annotOf clone clonedFromKey ∧
        info.ports = annotOf clone portsKey ∧
        info.target =
          (access.targets.headD ⟨"", ""⟩).ns ++ "/" ++
            replaceFirst
              (replaceFirst (access.targets.headD ⟨"", ""⟩).serviceName
                "netwatch-clone-")
              ("-" ++ randSuffixOf reqID) ++ " (Pending Approval)") ∧
    ((clonesFor services reqID).length ≠ 1 → (clonesFor services reqID).length ≠ 2 →
      processAccess services access = none) := by
  refine ⟨?_, ?_, ?_⟩
  · intro clone1 clone2 hcl
    simp only [processAccess, hlbl, hcl]
    by_cases h1 : ((access.targets.headD ⟨"", ""⟩).serviceName == clone1.name &&
        (access.targets.headD ⟨"", ""⟩).ns == clone1.ns) = true
    · rw [if_pos h1]
      refine ⟨_, rfl, rfl, fun _ => ⟨rfl, rfl, rfl⟩, ?_⟩
      intro hn _
      exact absurd (by simpa [Bool.and_eq_true, beq_iff_eq] using h1) hn
    · rw [if_neg h1]
      by_cases h2 : ((access.targets.headD ⟨"", ""⟩).serviceName == clone2.name &&
          (access.targets.headD ⟨"", ""⟩).ns == clone2.ns) = true
      · rw [if_pos h2]
        refine ⟨_, rfl, rfl, ?_, fun _ _ => ⟨rfl, rfl, rfl⟩⟩
        intro hp
        exact absurd (by rw [hp.1, hp.2]; simp) h1
      · rw [if_neg h2]
        refine ⟨_, rfl, rfl, ?_, ?_⟩
        · intro hp
          exact absurd (by rw [hp.1, hp.2]; simp) h1
        · intro _ hp2
          exact absurd (by rw [hp2.1, hp2.2]; simp) h2
  · intro clone hcl
    simp only [processAccess, hlbl, hcl]
    exact ⟨_, rfl, rfl, rfl, rfl, rfl⟩
  · intro hn1 hn2
    rcases hshape : clonesFor services reqID with _ | ⟨x, _ | ⟨y, _ | ⟨z, rest⟩⟩⟩
    · simp [processAccess, hlbl, hshape]
    · exact absurd (by rw [hshape]; rfl) hn1
    · exact absurd (by rw [hshape]; rfl) hn2
    · simp [processAccess, hlbl, hshape]

/-- Witness for C9: the worked complete pair yields an Active row with
target and source read off the matching clone annotations. -/
theorem C9_readmodel_clone_count_classification_witness :
    ∃ info, processAccess [demoJoinCloneA, demoJoinCloneB] demoJoinAccess =
        some info ∧ info.status = "Active" ∧
      (((demoJoinAccess.targets.headD ⟨"", ""⟩).serviceName = demoJoinCloneA.name ∧
        (demoJoinAccess.targets.headD ⟨"", ""⟩).ns = demoJoinCloneA.ns) →
        info.target = annotOf demoJoinCloneA clonedFromKey ∧
        info.source = annotOf demoJoinCloneB clonedFromKey ∧
        info.ports = annotOf demoJoinCloneB portsKey) ∧
      (¬((demoJoinAccess.targets.headD ⟨"", ""⟩).serviceName = demoJoinCloneA.name ∧
         (demoJoinAccess.targets.headD ⟨"", ""⟩).ns = demoJoinCloneA.ns) →
       ((demoJoinAccess.targets.headD ⟨"", ""⟩).serviceName = demoJoinCloneB.name ∧
        (demoJoinAccess.targets.headD ⟨"", ""⟩).ns = demoJoinCloneB.ns) →
        info.target = annotOf demoJoinCloneB clonedFromKey ∧
        info.source = annotOf demoJoinCloneA clonedFromKey ∧
        info.ports = annotOf demoJoinCloneA portsKey) :=
  (C9_readmodel_clone_count_classification [demoJoinCloneA, demoJoinCloneB]
    demoJoinAccess "0123456789" (by decide)).1 demoJoinCloneA demoJoinCloneB
    (by decide)

/-- C10: deleteClonedServices returns an error exactly when listing the
clones fails (its per-clone delete failures are logged and swallowed), so
the finalizer pass of a deleting Access removes the finalizer and reports
success even when some clones sharing the correlation id could not be
deleted and remain behind. -/
theorem C10_clone_delete_failures_swallowed (listInj : Option K8sErr)
    (delInj : String → String → Option K8sErr) (inj : FinReconInj) (obj : Access)
    (c cOut : Cluster) (reqID : String) (res : Option K8sErr) :
    ((deleteClonedServices listInj delInj c reqID).2 = listInj) ∧
    (obj.deleting = true → obj.finalizers.contains accessFinalizerName = true →
     lookupL obj.labels reqIdKey = some reqID →
     inj.listServices = none → inj.removeFinalizerUpdate = none →
     reconcileAccessFinalizer inj delInj obj c = (cOut, res) →
     res = none ∧
     cOut.accesses = c.accesses.map (fun x =>
       if x.name == obj.name && x.ns == obj.ns then
         { obj with finalizers :=
             obj.finalizers.filter (fun f => !(f == accessFinalizerName)) }
       else x) ∧
     ∀ sv ∈ c.services, hasReqId sv.labels reqID = true →
       (delInj sv.ns sv.name).isSome = true → sv ∈ cOut.services) := by
  constructor
  · cases listInj <;> rfl
  · intro hdel hfin hlbl hlist hupd hrun
    obtain ⟨nm, nsp, lbl, dir, dur, sel, tgts, fin, del⟩ := obj
    dsimp only at hdel hfin hlbl
    subst hdel
    simp only [reconcileAccessFinalizer, Bool.not_true, Bool.false_eq_true,
      if_false, hfin, if_true, eq_self_iff_true, hlbl, deleteClonedServices, hlist,
      updateAccess, hupd] at hrun
    obtain ⟨hc, hres⟩ := Prod.mk.injEq _ _ _ _ ▸ hrun
    refine ⟨hres.symm, ?_, ?_⟩
    · rw [← hc]
    · intro sv hmem hlblsv hinj
      rw [← hc]
      apply List.mem_filter.mpr
      refine ⟨hmem, ?_⟩
      rcases hd : delInj sv.ns sv.name with _ | e
      · rw [hd] at hinj; cases hinj
      · simp [hlblsv, hd]

/-- Witness for C10: a failing clone delete leaves that clone behind while
the finalizer is still removed and the pass reports success. -/
theorem C10_clone_delete_failures_swallowed_witness :
    ((deleteClonedServices (some (K8sErr.transient 1)) demoDelInj demoFinCluster
      "0123456789").2 = some (K8sErr.transient 1)) ∧
    ((reconcileAccessFinalizer {} demoDelInj demoFinAccess demoFinCluster).2 = none ∧
     (reconcileAccessFinalizer {} demoDelInj demoFinAccess demoFinCluster).1.accesses =
       demoFinCluster.accesses.map (fun x =>
         if x.name == demoFinAccess.name && x.ns == demoFinAccess.ns then
           { demoFinAccess with finalizers :=
               demoFinAccess.finalizers.filter (fun f => !(f == accessFinalizerName)) }
         else x) ∧
     ∀ sv ∈ demoFinCluster.services, hasReqId sv.labels "0123456789" = true →
       (demoDelInj sv.ns sv.name).isSome = true →
       sv ∈ (reconcileAccessFinalizer {} demoDelInj demoFinAccess
         demoFinCluster).1.services) :=
  ⟨(C10_clone_delete_failures_swallowed (some (K8sErr.transient 1)) demoDelInj {}
      demoFinAccess demoFinCluster demoFinCluster "0123456789" none).1,
   (C10_clone_delete_failures_swallowed none demoDelInj {} demoFinAccess
      demoFinCluster
      (reconcileAccessFinalizer {} demoDelInj demoFinAccess demoFinCluster).1
      "0123456789"
      (reconcileAccessFinalizer {} demoDelInj demoFinAccess demoFinCluster).2).2
    rfl rfl (by decide) rfl rfl (by rfl)⟩

end Netwatch
